import Mathlib

/-!
# Verification of the `moments` MDL core

Shallow embedding of the `moments` package (Moment Definition Language):
the occurrence variant model, the canonical text serializer, the dict
codec, the text parser, and the snapshot chain operations, with theorems
settling the specification claims.

Python sources embedded: `moments/moment.py`, `moments/snapshot.py`,
`moments/agent.py`.  The PEG grammar files (`grammar.peg`,
`snapshots_grammar.peg`) are not part of the source tree, so the
text-route grammar is modelled from the specification (each such
definition is marked `Modelled from the spec:`); the reducer semantics
(`walk`) follow the Python source exactly.
-/

namespace Moments

/-- Model of Python/YAML values appearing as occurrence content: either a
string or a string-keyed mapping with string values (the flat `dict`
domain exercised by the library). -/
inductive Val : Type where
  | s (str : String)
  | m (map : List (String × String))
deriving DecidableEq, Repr

/-- Python truthiness of a `Val`: the empty string and the empty mapping
are falsy, everything else is truthy. -/
def truthy : Val → Bool
  | .s str => str ≠ ""
  | .m map => map ≠ []

/-- The closed occurrence variant set of `moment.py`, one constructor per
`Occurrence` subclass, carrying the constructed `content` payload as the
Python object stores it. -/
inductive Occurrence : Type where
  | instructions (content : String)
  | exampleOcc (title ex : String)
  | begin
  | context (content : Val)
  | self (emotion saysv : String)
  | participant (name emotion saysv : String)
  | motivation (content : String)
  | observation (content : String)
  | thought (content : String)
  | identification (kind name : String)
  | waiting (content : Val)
  | resuming (content : Val)
  | working (content : Val)
  | action (content : Val)
  | rejected (emotion saysv : String)
  | critiqueRequest (content : String)
  | critique (content : String)
  | revisionRequest (content : String)
  | revision (emotion saysv : String)
deriving DecidableEq, Repr

/-- Python `x if x else ""` on an optional string argument (`None` and
`""` both give `""`; any other string is kept). -/
def pyOr : Option String → String
  | none => ""
  | some t => t

/-- Python `x if x else d` on an optional `Val` argument: `None` and
falsy values give the default `d`, truthy values are kept. -/
def pyOrVal (d : Val) : Option Val → Val
  | none => d
  | some w => if truthy w then w else d

/-- `Instructions.__init__`: `content = instructions if instructions else ""`. -/
def Instructions.init (instructions : Option String) : Occurrence :=
  .instructions (pyOr instructions)

/-- `Example.__init__`: both fields default to the empty string. -/
def Example.init (title ex : Option String) : Occurrence :=
  .exampleOcc (pyOr title) (pyOr ex)

/-- `Begin.__init__`: content is always the empty string. -/
def Begin.init : Occurrence := .begin

/-- `Context.__init__`: `content = context if context else {}`. -/
def Context.init (context : Option Val) : Occurrence :=
  .context (pyOrVal (.m []) context)

/-- `Self.__init__`: emotion and saysv default to the empty string. -/
def Self.init (emotion saysv : Option String) : Occurrence :=
  .self (pyOr emotion) (pyOr saysv)

/-- `Participant.__init__`: name, emotion and saysv default to `""`. -/
def Participant.init (name emotion saysv : Option String) : Occurrence :=
  .participant (pyOr name) (pyOr emotion) (pyOr saysv)

/-- `Motivation.__init__`. -/
def Motivation.init (motivation : Option String) : Occurrence :=
  .motivation (pyOr motivation)

/-- `Observation.__init__`. -/
def Observation.init (observation : Option String) : Occurrence :=
  .observation (pyOr observation)

/-- `Thought.__init__`. -/
def Thought.init (thought : Option String) : Occurrence :=
  .thought (pyOr thought)

/-- `Identification.__init__`: kind and name default to `""`. -/
def Identification.init (kind name : Option String) : Occurrence :=
  .identification (pyOr kind) (pyOr name)

/-- `Waiting.__init__`: `content = waiting_on if waiting_on else ""` —
note the default is the empty STRING, not the empty mapping. -/
def Waiting.init (waiting_on : Option Val) : Occurrence :=
  .waiting (pyOrVal (.s "") waiting_on)

/-- `Resuming.__init__`: same empty-string default as `Waiting`. -/
def Resuming.init (resuming_on : Option Val) : Occurrence :=
  .resuming (pyOrVal (.s "") resuming_on)

/-- `Working.__init__`: same empty-string default as `Waiting`. -/
def Working.init (working_on : Option Val) : Occurrence :=
  .working (pyOrVal (.s "") working_on)

/-- `Action.__init__`: same empty-string default as `Waiting`. -/
def Action.init (action : Option Val) : Occurrence :=
  .action (pyOrVal (.s "") action)

/-- `Rejected.__init__`: emotion and saysv default to `""`. -/
def Rejected.init (emotion saysv : Option String) : Occurrence :=
  .rejected (pyOr emotion) (pyOr saysv)

/-- `CritiqueRequest.__init__`. -/
def CritiqueRequest.init (critique_request : Option String) : Occurrence :=
  .critiqueRequest (pyOr critique_request)

/-- `Critique.__init__`. -/
def Critique.init (critique : Option String) : Occurrence :=
  .critique (pyOr critique)

/-- `RevisionRequest.__init__`. -/
def RevisionRequest.init (revision_request : Option String) : Occurrence :=
  .revisionRequest (pyOr revision_request)

/-- `Revision.__init__`: emotion and saysv default to `""`. -/
def Revision.init (emotion saysv : Option String) : Occurrence :=
  .revision (pyOr emotion) (pyOr saysv)

/-- A Moment: an identifier plus the ordered occurrence sequence. -/
structure Moment where
  id : String
  occurrences : List Occurrence
deriving DecidableEq, Repr

/-- One entry of a Moment dict's `occurrences` list: a Python dict whose
`kind` and `content` keys may each be absent. -/
structure OccEntry where
  kind : Option String
  content : Option Val
deriving DecidableEq, Repr

/-- The dict form of a Moment: the `id` key (absent means `KeyError` on
access) and the occurrence entries. -/
structure MomentDict where
  id : Option String
  occurrences : List OccEntry
deriving DecidableEq, Repr

/-- `Occurrence.to_dict`: a deep copy of the instance `__dict__`
(holding `content`) plus `kind` set to the class name. -/
def occToDict : Occurrence → OccEntry
  | .instructions c => ⟨some "Instructions", some (.s c)⟩
  | .exampleOcc t e => ⟨some "Example", some (.m [("title", t), ("example", e)])⟩
  | .begin => ⟨some "Begin", some (.s "")⟩
  | .context v => ⟨some "Context", some v⟩
  | .self em sv => ⟨some "Self", some (.m [("emotion", em), ("says", sv)])⟩
  | .participant n em sv => ⟨some "Participant", some (.m [("name", n), ("emotion", em), ("says", sv)])⟩
  | .motivation c => ⟨some "Motivation", some (.s c)⟩
  | .observation c => ⟨some "Observation", some (.s c)⟩
  | .thought c => ⟨some "Thought", some (.s c)⟩
  | .identification k n => ⟨some "Identification", some (.m [("kind", k), ("name", n)])⟩
  | .waiting v => ⟨some "Waiting", some v⟩
  | .resuming v => ⟨some "Resuming", some v⟩
  | .working v => ⟨some "Working", some v⟩
  | .action v => ⟨some "Action", some v⟩
  | .rejected em sv => ⟨some "Rejected", some (.m [("emotion", em), ("says", sv)])⟩
  | .critiqueRequest c => ⟨some "CritiqueRequest", some (.s c)⟩
  | .critique c => ⟨some "Critique", some (.s c)⟩
  | .revisionRequest c => ⟨some "RevisionRequest", some (.s c)⟩
  | .revision em sv => ⟨some "Revision", some (.m [("emotion", em), ("says", sv)])⟩

/-- `Moment.to_dict`: `{id, occurrences: [occ.to_dict(), ...]}`. -/
def momentToDict (m : Moment) : MomentDict :=
  ⟨some m.id, m.occurrences.map occToDict⟩

/-- Keyword splat `f(**kvs)` against a signature with exactly one
required parameter `k`: succeeds iff the mapping's keys are exactly
`[k]`, else Python raises `TypeError`. -/
def kw1 (k : String) (kvs : List (String × String)) : Option String :=
  match kvs.lookup k with
  | some v => if kvs.length = 1 then some v else none
  | none => none

/-- Keyword splat against two required parameters. -/
def kw2 (k1 k2 : String) (kvs : List (String × String)) : Option (String × String) :=
  match kvs.lookup k1, kvs.lookup k2 with
  | some v1, some v2 => if kvs.length = 2 then some (v1, v2) else none
  | _, _ => none

/-- Keyword splat against three required parameters. -/
def kw3 (k1 k2 k3 : String) (kvs : List (String × String)) :
    Option (String × String × String) :=
  match kvs.lookup k1, kvs.lookup k2, kvs.lookup k3 with
  | some v1, some v2, some v3 => if kvs.length = 3 then some (v1, v2, v3) else none
  | _, _, _ => none

/-- `occurrence["content"]`: `KeyError` when the key is absent. -/
def getContent : Option Val → Except String Val
  | none => .error "KeyError: content"
  | some v => .ok v

/-- Require a string-typed content (variants whose constructor receives
the raw content as its single string field); a mapping here is outside
the modelled domain. -/
def asStr : Val → Except String String
  | .s str => .ok str
  | .m _ => .error "model: content shape outside modelled domain"

/-- Require a mapping content for a `**content` splat; a string raises
`TypeError: argument after ** must be a mapping`. -/
def asMap : Val → Except String (List (String × String))
  | .s _ => .error "TypeError: argument after ** must be a mapping"
  | .m kvs => .ok kvs

/-- Lift the result of a keyword splat: `none` means Python raised
`TypeError` (missing or unexpected keyword argument). -/
def kwOk {α : Type} : Option α → Except String α
  | none => .error "TypeError: keyword arguments do not match the signature"
  | some a => .ok a

/-- The dispatch chain of `Moment._parse_dict` for one popped `kind`:
each known kind constructs its occurrence (`.ok (some _)`), an unknown
or absent kind silently produces nothing (`.ok none`). -/
def dispatchOcc (kind : Option String) (content : Option Val) :
    Except String (Option Occurrence) :=
  if kind = some "Instructions" then do
    let c ← getContent content
    let str ← asStr c
    return some (Instructions.init (some str))
  else if kind = some "Example" then do
    let c ← getContent content
    let kvs ← asMap c
    let (t, e) ← kwOk (kw2 "title" "example" kvs)
    return some (Example.init (some t) (some e))
  else if kind = some "Begin" then
    return some Begin.init
  else if kind = some "Thought" then do
    let c ← getContent content
    let str ← asStr c
    return some (Thought.init (some str))
  else if kind = some "Motivation" then do
    let c ← getContent content
    let str ← asStr c
    return some (Motivation.init (some str))
  else if kind = some "Observation" then do
    let c ← getContent content
    let str ← asStr c
    return some (Observation.init (some str))
  else if kind = some "Self" then do
    let c ← getContent content
    let kvs ← asMap c
    let (em, sv) ← kwOk (kw2 "emotion" "says" kvs)
    return some (Self.init (some em) (some sv))
  else if kind = some "Identification" then do
    let c ← getContent content
    let kvs ← asMap c
    let (k, n) ← kwOk (kw2 "kind" "name" kvs)
    return some (Identification.init (some k) (some n))
  else if kind = some "Context" then do
    let c ← getContent content
    return some (Context.init (some c))
  else if kind = some "Action" then do
    let c ← getContent content
    let kvs ← asMap c
    let v ← kwOk (kw1 "action" kvs)
    return some (Action.init (some (.s v)))
  else if kind = some "Waiting" then do
    let c ← getContent content
    let kvs ← asMap c
    let v ← kwOk (kw1 "waiting_on" kvs)
    return some (Waiting.init (some (.s v)))
  else if kind = some "Resuming" then do
    let c ← getContent content
    let kvs ← asMap c
    let v ← kwOk (kw1 "resuming_on" kvs)
    return some (Resuming.init (some (.s v)))
  else if kind = some "Working" then do
    let c ← getContent content
    let kvs ← asMap c
    let v ← kwOk (kw1 "working_on" kvs)
    return some (Working.init (some (.s v)))
  else if kind = some "Rejected" then do
    let c ← getContent content
    let kvs ← asMap c
    let (em, sv) ← kwOk (kw2 "emotion" "says" kvs)
    return some (Rejected.init (some em) (some sv))
  else if kind = some "CritiqueRequest" then do
    let c ← getContent content
    let str ← asStr c
    return some (CritiqueRequest.init (some str))
  else if kind = some "Critique" then do
    let c ← getContent content
    let str ← asStr c
    return some (Critique.init (some str))
  else if kind = some "RevisionRequest" then do
    let c ← getContent content
    let str ← asStr c
    return some (RevisionRequest.init (some str))
  else if kind = some "Revision" then do
    let c ← getContent content
    let kvs ← asMap c
    let (em, sv) ← kwOk (kw2 "emotion" "says" kvs)
    return some (Revision.init (some em) (some sv))
  else if kind = some "Participant" then do
    let c ← getContent content
    let kvs ← asMap c
    let (n, em, sv) ← kwOk (kw3 "name" "emotion" "says" kvs)
    return some (Participant.init (some n) (some em) (some sv))
  else
    return none

/-- The entry loop of `Moment._parse_dict`.  Python pops the `kind` key
of each visited entry, mutating the caller's dict; the second component
is the post-call state of the entry list (entries after a raising entry
are left untouched). -/
def parseEntries : List OccEntry → Except String (List Occurrence) × List OccEntry
  | [] => (.ok [], [])
  | e :: rest =>
    match dispatchOcc e.kind e.content with
    | .error msg => (.error msg, ⟨none, e.content⟩ :: rest)
    | .ok none =>
      ((parseEntries rest).1, ⟨none, e.content⟩ :: (parseEntries rest).2)
    | .ok (some o) =>
      ((parseEntries rest).1.map (o :: ·), ⟨none, e.content⟩ :: (parseEntries rest).2)

/-- `Moment._parse_dict`, returning the parse result together with the
post-call state of the input dict. -/
def momentParseDict (d : MomentDict) :
    Except String (String × List Occurrence) × MomentDict :=
  match d.id with
  | none => (.error "KeyError: id", d)
  | some i =>
    ((parseEntries d.occurrences).1.map (fun os => (i, os)),
     ⟨d.id, (parseEntries d.occurrences).2⟩)

/-- `says.replace('"', '\\"')` at character level. -/
def escQ : List Char → List Char
  | [] => []
  | c :: r => if c = '"' then '\\' :: '"' :: escQ r else c :: escQ r

/-- The quoted `says` rendering shared by `Self`, `Participant`,
`Rejected` and `Revision.__str__`: escape double quotes, then use the
triple-quoted form when a newline is present, else the single-line
double-quoted form. -/
def saysChars (sv : String) : List Char :=
  let e := escQ sv.data
  if '\n' ∈ e then "\"\"\"".data ++ e ++ "\"\"\"".data
  else '"' :: (e ++ ['"'])

/-- `f"({emotion}) " if emotion else ""`. -/
def emotionChars (emotion : String) : List Char :=
  if emotion = "" then [] else '(' :: (emotion.data ++ ") ".data)

/-- The newline-separated `key: value` lines of a nonempty flat YAML
mapping. -/
def yamlLines : List (String × String) → List Char
  | [] => []
  | [kv] => kv.1.data ++ ':' :: ' ' :: kv.2.data
  | kv :: rest => kv.1.data ++ ':' :: ' ' :: kv.2.data ++ '\n' :: yamlLines rest

/-- Modelled from the spec: the external YAML encoder (`yaml.dump` with
`default_flow_style=False`, result `.strip()`ed), restricted to the flat
domain the library exercises.  The empty string dumps as `''`, the
empty mapping as its flow form, and a nonempty flat mapping as one
`key: value` line per entry. -/
def yamlDump : Val → List Char
  | .s str => if str = "" then "''".data else str.data
  | .m [] => ['\x7b', '\x7d']
  | .m kvs => yamlLines kvs

/-- Capture characters up to (and consuming) `c`; fail at end of input. -/
def takeToChar (c : Char) : List Char → Option (List Char × List Char)
  | [] => none
  | d :: r => if d = c then some ([], r) else (takeToChar c r).map (fun p => (d :: p.1, p.2))

/-- Capture characters up to (and consuming) `c` on the current line;
fail at a newline or at end of input. -/
def takeToCharNoNl (c : Char) : List Char → Option (List Char × List Char)
  | [] => none
  | d :: r =>
    if d = c then some ([], r)
    else if d = '\n' then none
    else (takeToCharNoNl c r).map (fun p => (d :: p.1, p.2))

/-- One `key: value` line of a flat YAML mapping. -/
def yamlLineParse (line : List Char) : Option (String × String) :=
  match takeToChar ':' line with
  | some (k, r) =>
    match r with
    | c :: v => if c = ' ' then some ((⟨k⟩ : String), (⟨v⟩ : String)) else none
    | [] => none
  | none => none

/-- Total capture of the rest of the current line (newline consumed). -/
def restOfLine : List Char → List Char × List Char
  | [] => ([], [])
  | c :: r => if c = '\n' then ([], r) else
      let p := restOfLine r
      (c :: p.1, p.2)

/-- Parse the newline-separated `key: value` lines of a flat YAML
mapping (fuelled by the input length). -/
def yamlParsePairs : Nat → List Char → Option (List (String × String))
  | 0, _ => none
  | fuel + 1, cs =>
    let p := restOfLine cs
    match yamlLineParse p.1 with
    | none => none
    | some kv =>
      if p.2 = [] then some [kv]
      else (yamlParsePairs fuel p.2).map (kv :: ·)

/-- Modelled from the spec: `yaml.safe_load` on the flat domain.  The two
flow forms give back the empty string / empty mapping, `key: value`
lines give a flat mapping, anything else is kept as a raw scalar. -/
def yamlLoad (cs : List Char) : Val :=
  if cs = "''".data then .s ""
  else if cs = ['\x7b', '\x7d'] then .m []
  else
    match yamlParsePairs (cs.length + 1) cs with
    | some kvs => .m kvs
    | none => .s ⟨cs⟩

/-- The character-exact `__str__` of every occurrence class. -/
def occChars : Occurrence → List Char
  | .instructions c => "Instructions: \"\"\"".data ++ c.data ++ "\"\"\"".data
  | .exampleOcc t e => "Example: ".data ++ t.data ++ " - '''".data ++ e.data ++ "'''".data
  | .begin => "Begin.".data
  | .context v => "Context: ```".data ++ yamlDump v ++ "```".data
  | .self em sv => "Self: ".data ++ emotionChars em ++ saysChars sv
  | .participant n em sv => n.data ++ ": ".data ++ emotionChars em ++ saysChars sv
  | .motivation c => "Motivation: ".data ++ c.data
  | .observation c => "Observation: ".data ++ c.data ++ "\n".data
  | .thought c => "Thought: \"\"\"".data ++ c.data ++ "\"\"\"".data
  | .identification k n =>
      "Identification: ".data ++ k.data ++ " is called \"".data ++ n.data ++ "\".".data
  | .waiting v => "Waiting: ```".data ++ yamlDump v ++ "```".data
  | .resuming v => "Resuming: ```".data ++ yamlDump v ++ "```".data
  | .working v => "Working: ```".data ++ yamlDump v ++ "```".data
  | .action v => "Action: ```".data ++ yamlDump v ++ "```".data
  | .rejected em sv => "Rejected: ".data ++ emotionChars em ++ saysChars sv
  | .critiqueRequest c => "Critique Request: ".data ++ c.data
  | .critique c => "Critique: ".data ++ c.data
  | .revisionRequest c => "Revision Request: ".data ++ c.data
  | .revision em sv => "Revision: ".data ++ emotionChars em ++ saysChars sv

/-- `Moment.__str__`: each occurrence's rendering followed by `"\n"`. -/
def momentTextChars : List Occurrence → List Char
  | [] => []
  | o :: r => occChars o ++ '\n' :: momentTextChars r

/-- `Moment.__str__` as a string. -/
def momentText (m : Moment) : String := ⟨momentTextChars m.occurrences⟩

/-- Expect a literal prefix; return the remainder on match. -/
def lit : List Char → List Char → Option (List Char)
  | [], cs => some cs
  | _ :: _, [] => none
  | l :: ls, c :: cs => if c = l then lit ls cs else none

/-- Raw capture of the single-line double-quoted string body
(`q_content`): a backslash-escaped quote is consumed verbatim —
backslashes included, as `parsimonious` node text keeps the raw input —
an unescaped quote closes the string, a newline is illegal. -/
def qScan : List Char → Option (List Char × List Char)
  | [] => none
  | [c] => if c = '"' then some ([], []) else none
  | c :: d :: r =>
    if c = '"' then some ([], d :: r)
    else if c = '\n' then none
    else if c = '\\' then
      if d = '"' then (qScan r).map (fun p => ('\\' :: '"' :: p.1, p.2))
      else (qScan (d :: r)).map (fun p => (c :: p.1, p.2))
    else (qScan (d :: r)).map (fun p => (c :: p.1, p.2))

/-- Raw capture of a triple-`q`-delimited body: all characters, newlines
included, until the first occurrence of `q` repeated three times.
Instantiated at `"` (`tq_content`), `'` (`tqs_content` of `Example`) and
the backtick (`ct_content` of the fenced YAML blocks). -/
def tripleScan (q : Char) : List Char → Option (List Char × List Char)
  | [] => none
  | [_] => none
  | [_, _] => none
  | c :: d :: e :: r =>
    if c = q ∧ d = q ∧ e = q then some ([], r)
    else (tripleScan q (d :: e :: r)).map (fun p => (c :: p.1, p.2))

/-- `tq_content`: triple-double-quoted body. -/
def tqScan : List Char → Option (List Char × List Char) := tripleScan '"'

/-- `tqs_content`: triple-single-quoted body. -/
def tsqScan : List Char → Option (List Char × List Char) := tripleScan '\''

/-- `ct_content`: backtick-fenced block body. -/
def fenceScan : List Char → Option (List Char × List Char) := tripleScan '`'

/-- `says_string`: the triple-quoted alternative before the single-line
quoted alternative. -/
def saysScan : List Char → Option (List Char × List Char)
  | [] => none
  | c :: r =>
    if c = '"' then
      match r with
      | d :: e :: r2 => if d = '"' ∧ e = '"' then tqScan r2 else qScan r
      | _ => qScan r
    else none

/-- Optional `(emotion) ` group followed by a `says_string`. -/
def emoSaysScan : List Char → Option (String × String × List Char)
  | [] => none
  | c :: r =>
    if c = '(' then
      match takeToCharNoNl ')' r with
      | some (em, r2) =>
        match r2 with
        | d :: r3 =>
          if d = ' ' then
            (saysScan r3).map (fun p => ((⟨em⟩ : String), (⟨p.1⟩ : String), p.2))
          else none
        | [] => none
      | none => none
    else (saysScan (c :: r)).map (fun p => (("" : String), (⟨p.1⟩ : String), p.2))

/-- Capture the first occurrence of the literal `pat`; return the text
before it and the remainder after it. -/
def takeUntilLit (pat : List Char) : List Char → Option (List Char × List Char)
  | [] => none
  | c :: cs =>
    if pat.isPrefixOf (c :: cs) then some ([], (c :: cs).drop pat.length)
    else (takeUntilLit pat cs).map (fun p => (c :: p.1, p.2))

/-- An occurrence line (or block) ends at a newline or at end of input. -/
def expectNl : List Char → Option (List Char)
  | [] => some []
  | c :: r => if c = '\n' then some r else none

/-- Grammar alternative for `Instructions`, reduced as in `walk`. -/
def tryInstructions (cs : List Char) : Option (Occurrence × List Char) := do
  let r ← lit "Instructions: \"\"\"".data cs
  let (c, r2) ← tqScan r
  let r3 ← expectNl r2
  return (Instructions.init (some ⟨c⟩), r3)

/-- Grammar alternative for `Example`. -/
def tryExample (cs : List Char) : Option (Occurrence × List Char) := do
  let r ← lit "Example: ".data cs
  let (t, r2) ← takeUntilLit " - '''".data r
  let (e, r3) ← tsqScan r2
  let r4 ← expectNl r3
  return (Example.init (some ⟨t⟩) (some ⟨e⟩), r4)

/-- Grammar alternative for `Begin`. -/
def tryBegin (cs : List Char) : Option (Occurrence × List Char) := do
  let r ← lit "Begin.".data cs
  let r2 ← expectNl r
  return (Begin.init, r2)

/-- Grammar alternative for `Context`: fenced YAML block. -/
def tryContext (cs : List Char) : Option (Occurrence × List Char) := do
  let r ← lit "Context: ```".data cs
  let (y, r2) ← fenceScan r
  let r3 ← expectNl r2
  return (Context.init (some (yamlLoad y)), r3)

/-- Grammar alternative for `Self`. -/
def trySelf (cs : List Char) : Option (Occurrence × List Char) := do
  let r ← lit "Self: ".data cs
  let (em, sv, r2) ← emoSaysScan r
  let r3 ← expectNl r2
  return (Self.init (some em) (some sv), r3)

/-- Grammar alternative for `Motivation`: the rest of the line. -/
def tryMotivation (cs : List Char) : Option (Occurrence × List Char) := do
  let r ← lit "Motivation: ".data cs
  let p := restOfLine r
  return (Motivation.init (some ⟨p.1⟩), p.2)

/-- Grammar alternative for `Observation`: the rest of the line. -/
def tryObservation (cs : List Char) : Option (Occurrence × List Char) := do
  let r ← lit "Observation: ".data cs
  let p := restOfLine r
  return (Observation.init (some ⟨p.1⟩), p.2)

/-- Grammar alternative for `Thought`. -/
def tryThought (cs : List Char) : Option (Occurrence × List Char) := do
  let r ← lit "Thought: ".data cs
  let (sv, r2) ← saysScan r
  let r3 ← expectNl r2
  return (Thought.init (some ⟨sv⟩), r3)

/-- Grammar alternative for `Identification`. -/
def tryIdentification (cs : List Char) : Option (Occurrence × List Char) := do
  let r ← lit "Identification: ".data cs
  let (k, r2) ← takeUntilLit " is called \"".data r
  let (n, r3) ← takeToCharNoNl '"' r2
  let r4 ← lit ".".data r3
  let r5 ← expectNl r4
  return (Identification.init (some ⟨k⟩) (some ⟨n⟩), r5)

/-- Grammar alternative for `Waiting`: fenced YAML block. -/
def tryWaiting (cs : List Char) : Option (Occurrence × List Char) := do
  let r ← lit "Waiting: ```".data cs
  let (y, r2) ← fenceScan r
  let r3 ← expectNl r2
  return (Waiting.init (some (yamlLoad y)), r3)

/-- Grammar alternative for `Resuming`: fenced YAML block. -/
def tryResuming (cs : List Char) : Option (Occurrence × List Char) := do
  let r ← lit "Resuming: ```".data cs
  let (y, r2) ← fenceScan r
  let r3 ← expectNl r2
  return (Resuming.init (some (yamlLoad y)), r3)

/-- Grammar alternative for `Working`: fenced YAML block. -/
def tryWorking (cs : List Char) : Option (Occurrence × List Char) := do
  let r ← lit "Working: ```".data cs
  let (y, r2) ← fenceScan r
  let r3 ← expectNl r2
  return (Working.init (some (yamlLoad y)), r3)

/-- Grammar alternative for `Action`: fenced YAML block. -/
def tryAction (cs : List Char) : Option (Occurrence × List Char) := do
  let r ← lit "Action: ```".data cs
  let (y, r2) ← fenceScan r
  let r3 ← expectNl r2
  return (Action.init (some (yamlLoad y)), r3)

/-- Grammar alternative for `Rejected`. -/
def tryRejected (cs : List Char) : Option (Occurrence × List Char) := do
  let r ← lit "Rejected: ".data cs
  let (em, sv, r2) ← emoSaysScan r
  let r3 ← expectNl r2
  return (Rejected.init (some em) (some sv), r3)

/-- Grammar alternative for `CritiqueRequest`: the rest of the line. -/
def tryCritiqueRequest (cs : List Char) : Option (Occurrence × List Char) := do
  let r ← lit "Critique Request: ".data cs
  let p := restOfLine r
  return (CritiqueRequest.init (some ⟨p.1⟩), p.2)

/-- Grammar alternative for `Critique`: the rest of the line. -/
def tryCritique (cs : List Char) : Option (Occurrence × List Char) := do
  let r ← lit "Critique: ".data cs
  let p := restOfLine r
  return (Critique.init (some ⟨p.1⟩), p.2)

/-- Grammar alternative for `RevisionRequest`: the rest of the line. -/
def tryRevisionRequest (cs : List Char) : Option (Occurrence × List Char) := do
  let r ← lit "Revision Request: ".data cs
  let p := restOfLine r
  return (RevisionRequest.init (some ⟨p.1⟩), p.2)

/-- Grammar alternative for `Revision`. -/
def tryRevision (cs : List Char) : Option (Occurrence × List Char) := do
  let r ← lit "Revision: ".data cs
  let (em, sv, r2) ← emoSaysScan r
  let r3 ← expectNl r2
  return (Revision.init (some em) (some sv), r3)

/-- Grammar alternative for `Participant`: a nonempty name before a
colon, then like `Self`. -/
def tryParticipant (cs : List Char) : Option (Occurrence × List Char) := do
  let (n, r) ← takeToCharNoNl ':' cs
  if n = [] then none else
  match r with
  | c :: r2 =>
    if c = ' ' then do
      let (em, sv, r3) ← emoSaysScan r2
      let r4 ← expectNl r3
      return (Participant.init (some ⟨n⟩) (some em) (some sv), r4)
    else none
  | [] => none

/-- Ordered choice between two alternatives: first match wins. -/
def orO {α : Type} : Option α → Option α → Option α
  | some a, _ => some a
  | none, b => b

/-- Ordered choice over a list of grammar alternatives. -/
def firstAlt (cs : List Char) :
    List (List Char → Option (Occurrence × List Char)) → Option (Occurrence × List Char)
  | [] => none
  | f :: fs => orO (f cs) (firstAlt cs fs)

/-- The ordered alternatives of the occurrence rule: one per kind,
keyword alternatives first, the generic `Participant` rule last. -/
def grammarAlts : List (List Char → Option (Occurrence × List Char)) :=
  [tryInstructions, tryExample, tryBegin, tryContext, trySelf, tryMotivation,
   tryObservation, tryThought, tryIdentification, tryWaiting, tryResuming,
   tryWorking, tryAction, tryRejected, tryCritiqueRequest, tryCritique,
   tryRevisionRequest, tryRevision, tryParticipant]

/-- Modelled from the spec: `grammar.peg` is not under `src/`, so the
occurrence alternatives are an ordered choice — first match wins —
reduced exactly as `walk` reduces the parse tree. -/
def parseOcc (cs : List Char) : Option (Occurrence × List Char) :=
  firstAlt cs grammarAlts

/-- Skip blank separator lines between occurrence blocks. -/
def skipNewlines : List Char → List Char
  | [] => []
  | c :: r => if c = '\n' then skipNewlines r else c :: r

/-- Drop characters through the first newline. -/
def dropAfterNl : List Char → List Char
  | [] => []
  | c :: r => if c = '\n' then r else dropAfterNl r

/-- Modelled from the spec: the optional leading `#`-comment block of an
MDL document is skipped (fuelled by the input length). -/
def dropComments : Nat → List Char → List Char
  | 0, cs => cs
  | fuel + 1, cs =>
    match cs with
    | c :: r => if c = '#' then dropComments fuel (dropAfterNl r) else cs
    | [] => cs

/-- The occurrence-sequence loop of the modelled grammar: skip blank
lines, then require an occurrence alternative to match; a non-blank rest
that matches no alternative is a fatal parse error naming the offending
line. -/
def parseOccs : Nat → List Char → Except String (List Occurrence)
  | 0, _ => .error "parse: out of fuel"
  | fuel + 1, cs =>
    match skipNewlines cs with
    | [] => .ok []
    | cs' =>
      match parseOcc cs' with
      | some (o, rest) => (parseOccs fuel rest).map (o :: ·)
      | none => .error ("UnmatchedLineError: " ++ (⟨(restOfLine cs').1⟩ : String))

/-- `Moment._parse_text`: the Moment id is never extracted from the text
(the local `id` stays `""`); the body is reduced to the occurrence
sequence. -/
def momentParseText (s : String) : Except String (String × List Occurrence) :=
  let cs := dropComments s.data.length s.data
  (parseOccs (cs.length + 1) cs).map (fun occs => (("" : String), occs))

/-- An argument to `Moment.parse`: a string, a dict, or a Python value of
any other runtime type (tagged by its type name, e.g. `"list"`,
`"NoneType"`). -/
inductive ParseArg : Type where
  | text (s : String)
  | dict (d : MomentDict)
  | other (tag : String)
deriving DecidableEq, Repr

/-- `Moment.parse`: dispatch on the argument's runtime type.  When the
argument is neither `str` nor `dict` no branch assigns the locals `id`
and `occurrences`, so evaluating `cls(id=id, occurrences=occurrences)`
raises `UnboundLocalError` before any Moment is constructed. -/
def momentParse : ParseArg → Except String Moment
  | .text s => (momentParseText s).map (fun p => ⟨p.1, p.2⟩)
  | .dict d => ((momentParseDict d).1).map (fun p => ⟨p.1, p.2⟩)
  | .other _ => .error "UnboundLocalError: local variable id referenced before assignment"

/-- A `snapshot.py` `Snapshot` object: the attributes `__init__` sets,
plus the dynamic `id` attribute that `Agent.next` expects — `none`
models its absence from the instance dict. -/
structure SnapshotObj where
  moment_id : String
  snapshot_id : String
  moment : Moment
  previous_snapshot_id : Option String
  timestamp : Option String
  annotations : Option Val
  id : Option String
deriving DecidableEq, Repr

/-- `Snapshot.__init__`: sets exactly `moment_id`, `snapshot_id`,
`moment`, `previous_snapshot_id`, `timestamp` and `annotations`; no `id`
attribute is ever created. -/
def Snapshot.init (moment_id snapshot_id : String) (moment : Moment)
    (previous_snapshot_id : Option String) (timestamp : Option String)
    (annotations : Option Val) : SnapshotObj :=
  ⟨moment_id, snapshot_id, moment, previous_snapshot_id, timestamp, annotations, none⟩

/-- `Agent.next`: after the abstract `before`/`do`/`after` hooks have
mutated the snapshot's moment (modelled by the post-hook moment `m'`),
the code chains the snapshot in place, first reading `snapshot.id` — an
attribute `Snapshot.__init__` never defines, so the lookup raises
`AttributeError`.  `freshId` and `freshTs` stand for `str(uuid4())` and
`datetime.now().isoformat()`. -/
def agentNext (m' : Moment) (freshId freshTs : String) (snapshot : SnapshotObj) :
    Except String SnapshotObj :=
  let snapshot := { snapshot with moment := m' }
  match snapshot.id with
  | none => .error "AttributeError: 'Snapshot' object has no attribute 'id'"
  | some oldId =>
    .ok { snapshot with
            previous_snapshot_id := some oldId,
            id := some freshId,
            timestamp := some freshTs }

/-- The `snapshot_dict` filled by `snapshot.py`'s `walk`: each header
field is present iff its grammar rule matched; the remaining characters
are the Moment body lines. -/
structure SnapshotHeader where
  moment_id : Option String
  snapshot_id : Option String
  previous_snapshot_id : Option String
  timestamp : Option String
  annotations : Option (List Char)
  momentChars : List Char
deriving DecidableEq, Repr

/-- Modelled from the spec: `snapshots_grammar.peg` is not under `src/`;
the `#`-prefixed header lines (own id, optional predecessor id,
timestamp, optional fenced annotation block) are scanned in any order at
the top of the document, and everything after them is the Moment body. -/
def scanHeader : Nat → List Char → SnapshotHeader → SnapshotHeader
  | 0, cs, h => { h with momentChars := cs }
  | fuel + 1, cs, h =>
    match lit "# Moment ID: ".data cs with
    | some r =>
      let p := restOfLine r
      scanHeader fuel p.2 { h with moment_id := some ⟨p.1⟩ }
    | none =>
    match lit "# Snapshot ID: ".data cs with
    | some r =>
      let p := restOfLine r
      scanHeader fuel p.2 { h with snapshot_id := some ⟨p.1⟩ }
    | none =>
    match lit "# Previous Snapshot ID: ".data cs with
    | some r =>
      let p := restOfLine r
      scanHeader fuel p.2 { h with previous_snapshot_id := some ⟨p.1⟩ }
    | none =>
    match lit "# Timestamp: ".data cs with
    | some r =>
      let p := restOfLine r
      scanHeader fuel p.2 { h with timestamp := some ⟨p.1⟩ }
    | none =>
    match lit "# Annotations: ```\n".data cs with
    | some r =>
      match fenceScan r with
      | some (a, r2) =>
        match expectNl r2 with
        | some r3 => scanHeader fuel r3 { h with annotations := some a }
        | none => { h with momentChars := cs }
      | none => { h with momentChars := cs }
    | none => { h with momentChars := cs }

/-- Strip trailing newlines from a fenced annotation body before YAML
decoding. -/
def stripTrailNl (cs : List Char) : List Char :=
  ((skipNewlines cs.reverse)).reverse

/-- `Snapshot.parse` on text, following `snapshot.py` lines 90–108:
the header fields are read from the reduced `snapshot_dict`
(`moment_id`, `snapshot_id`, `timestamp` raise `KeyError` when absent,
the predecessor id defaults to `None`), the local `annotations` is
assigned ONLY inside `if "annotations" in snapshot_dict`, the Moment
body is parsed, and the final constructor call evaluates `annotations`
— raising `UnboundLocalError` when the annotation block was absent. -/
def snapshotParseText (s : String) : Except String SnapshotObj := do
  let h := scanHeader s.data.length s.data ⟨none, none, none, none, none, []⟩
  let mid ← h.moment_id.elim (.error "KeyError: moment_id") .ok
  let sid ← h.snapshot_id.elim (.error "KeyError: snapshot_id") .ok
  let prev := h.previous_snapshot_id
  let ts ← h.timestamp.elim (.error "KeyError: timestamp") .ok
  let annLocal : Option Val := h.annotations.map (fun a => yamlLoad (stripTrailNl a))
  let mo ← momentParseText ⟨h.momentChars⟩
  match annLocal with
  | none => .error "UnboundLocalError: local variable annotations referenced before assignment"
  | some ann =>
    return Snapshot.init mid sid ⟨mo.1, mo.2⟩ prev (some ts) (some ann)

/-- The kind strings the dict dispatch of `_parse_dict` recognizes. -/
def knownKinds : List String :=
  ["Instructions", "Example", "Begin", "Thought", "Motivation", "Observation",
   "Self", "Identification", "Context", "Action", "Waiting", "Resuming",
   "Working", "Rejected", "CritiqueRequest", "Critique", "RevisionRequest",
   "Participant", "Revision"]

/-- An emotion field the modelled grammar can read back: no closing
parenthesis and no newline. -/
def emoSafe (s : String) : Prop := ')' ∉ s.data ∧ '\n' ∉ s.data

/-- A says field the modelled grammar reads back verbatim: no double
quote (so no escaping happens) and no backslash. -/
def saysSafe (s : String) : Prop := '"' ∉ s.data ∧ '\\' ∉ s.data

/-- First characters that would collide with a keyword alternative (or
with the comment/blank-line syntax) when they begin a participant name. -/
def keywordInitials : List Char :=
  ['I', 'E', 'B', 'C', 'S', 'M', 'O', 'T', 'W', 'R', 'A', '#', '\n']

/-- A participant name the modelled grammar parses back as a
`Participant`: nonempty, colon- and newline-free, and not beginning like
any keyword alternative. -/
def nameSafe (s : String) : Prop :=
  match s.data with
  | [] => False
  | c :: _ => c ∉ keywordInitials ∧ ':' ∉ s.data ∧ '\n' ∉ s.data

/-- A string inside the modelled flat YAML domain: nonempty and made of
letters only (so the external YAML codec treats it as a plain scalar). -/
def alphaStr (s : String) : Prop := s.data ≠ [] ∧ ∀ c ∈ s.data, c.isAlpha

/-- A flat YAML mapping inside the modelled safe domain. -/
def safeKvs (kvs : List (String × String)) : Prop :=
  ∀ kv ∈ kvs, alphaStr kv.1 ∧ alphaStr kv.2

/-- Constructor-reachable safe content of the fenced kinds `Waiting`,
`Resuming`, `Working`, `Action`: the constructor's empty-string default,
or a nonempty safe mapping. -/
def fenceVal : Val → Prop
  | .s str => str = ""
  | .m [] => False
  | .m kvs => safeKvs kvs

/-- Safe content of `Context`: a (possibly empty) safe mapping. -/
def ctxVal : Val → Prop
  | .s _ => False
  | .m kvs => safeKvs kvs

/-- The grammar-safe occurrences: fields avoid the quoting, escaping and
delimiter characters of their respective grammar rules, participant
names do not collide with keywords, and fenced contents lie in the
modelled flat YAML domain. -/
def SafeOcc : Occurrence → Prop
  | .instructions c => '"' ∉ c.data
  | .exampleOcc t e => '\n' ∉ t.data ∧ '\'' ∉ t.data ∧ '\'' ∉ e.data
  | .begin => True
  | .context v => ctxVal v
  | .self em sv => emoSafe em ∧ saysSafe sv
  | .participant n em sv => nameSafe n ∧ emoSafe em ∧ saysSafe sv
  | .motivation c => '\n' ∉ c.data
  | .observation c => '\n' ∉ c.data
  | .thought c => '"' ∉ c.data
  | .identification k n => ('\n' ∉ k.data ∧ '"' ∉ k.data) ∧ ('\n' ∉ n.data ∧ '"' ∉ n.data)
  | .waiting v => fenceVal v
  | .resuming v => fenceVal v
  | .working v => fenceVal v
  | .action v => fenceVal v
  | .rejected em sv => emoSafe em ∧ saysSafe sv
  | .critiqueRequest c => '\n' ∉ c.data
  | .critique c => '\n' ∉ c.data
  | .revisionRequest c => '\n' ∉ c.data
  | .revision em sv => emoSafe em ∧ saysSafe sv

/-- The variants whose dict rendering survives `_parse_dict`'s `**`
splat: everything except `Waiting`, `Resuming`, `Working`, `Action`
(whose splat never matches their one-parameter constructors) and a
`Context` holding the untypable empty-string content. -/
def dictSafe : Occurrence → Prop
  | .waiting _ => False
  | .resuming _ => False
  | .working _ => False
  | .action _ => False
  | .context v => v ≠ .s ""
  | _ => True

/-- C5 counterexample: `Waiting.__init__` applied to the empty mapping
(or to an absent argument) stores the empty STRING as content, not the
empty mapping the claim requires for the mapping-content variants. -/
theorem c5_counterexample :
    Waiting.init (some (Val.m [])) = .waiting (.s "") ∧
    Waiting.init none = .waiting (.s "") ∧ Val.s "" ≠ Val.m [] :=
  ⟨rfl, rfl, by decide⟩

/-- C5 (amended): every constructed occurrence has non-null content of a
per-variant shape; string-content variants default absent/empty fields
to `""`; `Context` defaults absent/falsy content to the empty mapping;
but `Waiting`, `Resuming`, `Working` and `Action` default absent/falsy
content to the empty STRING; truthy content is stored unchanged. -/
theorem c5_content_defaults :
    (∀ v, truthy v = true → Waiting.init (some v) = .waiting v) ∧
    (∀ v, truthy v = true → Resuming.init (some v) = .resuming v) ∧
    (∀ v, truthy v = true → Working.init (some v) = .working v) ∧
    (∀ v, truthy v = true → Action.init (some v) = .action v) ∧
    (∀ v, truthy v = true → Context.init (some v) = .context v) ∧
    (∀ s, Instructions.init (some s) = .instructions s) ∧
    (Instructions.init none = .instructions "") ∧
    (Motivation.init none = .motivation "") ∧
    (Observation.init none = .observation "") ∧
    (Thought.init none = .thought "") ∧
    (Critique.init none = .critique "") ∧
    (CritiqueRequest.init none = .critiqueRequest "") ∧
    (RevisionRequest.init none = .revisionRequest "") ∧
    (Example.init none none = .exampleOcc "" "") ∧
    (Self.init none none = .self "" "") ∧
    (Participant.init none none none = .participant "" "" "") ∧
    (Rejected.init none none = .rejected "" "") ∧
    (Revision.init none none = .revision "" "") ∧
    (Identification.init none none = .identification "" "") ∧
    (Context.init none = .context (.m [])) ∧
    (Context.init (some (.m [])) = .context (.m [])) ∧
    (Context.init (some (.s "")) = .context (.m [])) ∧
    (Waiting.init none = .waiting (.s "")) ∧
    (Resuming.init (some (.m [])) = .resuming (.s "")) ∧
    (Working.init none = .working (.s "")) ∧
    (Action.init (some (.m [])) = .action (.s "")) := by
  refine ⟨?_, ?_, ?_, ?_, ?_, fun s => rfl, rfl, rfl, rfl, rfl, rfl, rfl, rfl,
    rfl, rfl, rfl, rfl, rfl, rfl, rfl, rfl, rfl, rfl, rfl, rfl, rfl⟩ <;>
    (intro v h; simp [Waiting.init, Resuming.init, Working.init, Action.init,
      Context.init, pyOrVal, h])

/-- C5 witness: a truthy mapping is stored unchanged by `Waiting`. -/
theorem c5_content_defaults_witness :
    truthy (Val.m [("k", "v")]) = true ∧
    Waiting.init (some (Val.m [("k", "v")])) = .waiting (.m [("k", "v")]) :=
  ⟨by decide, c5_content_defaults.1 (Val.m [("k", "v")]) (by decide)⟩

/-- C6: the chain-advance entry point `Agent.next` cannot build the new
snapshot version: it reads `snapshot.id`, an attribute `Snapshot.__init__`
never sets, so every call on a constructed Snapshot raises
`AttributeError` instead of returning a Snapshot with the claimed
predecessor link. -/
theorem c6_agent_next_attribute_error (mid sid : String) (mo m2 : Moment)
    (prev ts : Option String) (ann : Option Val) (freshId freshTs : String) :
    agentNext m2 freshId freshTs (Snapshot.init mid sid mo prev ts ann)
      = .error "AttributeError: 'Snapshot' object has no attribute 'id'" := rfl

/-- C9: a grammar-valid snapshot text with all required header lines but
no fenced annotation block makes `Snapshot.parse` raise
`UnboundLocalError` (the local `annotations` is only assigned inside
`if "annotations" in snapshot_dict`), while the same text with the
optional block present parses successfully. -/
theorem c9_snapshot_parse_missing_annotation_block :
    snapshotParseText
        "# Moment ID: m1\n# Snapshot ID: s1\n# Timestamp: 2023-01-01T00:00:00\nBegin.\n"
      = .error "UnboundLocalError: local variable annotations referenced before assignment" ∧
    snapshotParseText
        "# Moment ID: m1\n# Snapshot ID: s1\n# Timestamp: 2023-01-01T00:00:00\n# Annotations: ```\nk: v\n```\nBegin.\n"
      = .ok (Snapshot.init "m1" "s1" ⟨"", [.begin]⟩ none
          (some "2023-01-01T00:00:00") (some (.m [("k", "v")]))) :=
  ⟨rfl, rfl⟩

/-- C10: `Moment.parse` on an argument that is neither a string nor a
mapping fails with `UnboundLocalError` before constructing any Moment,
because neither dispatch branch assigns the locals. -/
theorem c10_parse_non_str_non_dict (tag : String) :
    momentParse (.other tag)
      = .error "UnboundLocalError: local variable id referenced before assignment" := rfl

/-- The dict dispatch reconstructs every dict-safe occurrence from its
own `to_dict` rendering. -/
theorem dispatchOcc_occToDict (o : Occurrence) (h : dictSafe o) :
    dispatchOcc (occToDict o).kind (occToDict o).content = .ok (some o) := by
  cases o with
  | context v =>
    have hstep : dispatchOcc (occToDict (.context v)).kind (occToDict (.context v)).content
        = .ok (some (Context.init (some v))) := rfl
    rw [hstep]
    cases v with
    | s str =>
      have hs : str ≠ "" := by
        intro heq
        exact absurd (by rw [heq]) h
      simp [Context.init, pyOrVal, truthy, hs]
    | m kvs => cases kvs <;> rfl
  | waiting v => exact absurd h (by simp [dictSafe])
  | resuming v => exact absurd h (by simp [dictSafe])
  | working v => exact absurd h (by simp [dictSafe])
  | action v => exact absurd h (by simp [dictSafe])
  | instructions c => rfl
  | exampleOcc t e => rfl
  | begin => rfl
  | self em sv => rfl
  | participant n em sv => rfl
  | motivation c => rfl
  | observation c => rfl
  | thought c => rfl
  | identification k n => rfl
  | rejected em sv => rfl
  | critiqueRequest c => rfl
  | critique c => rfl
  | revisionRequest c => rfl
  | revision em sv => rfl

/-- The entry loop reconstructs a dict-safe occurrence list. -/
theorem parseEntries_map_toDict (occs : List Occurrence)
    (h : ∀ o ∈ occs, dictSafe o) :
    (parseEntries (occs.map occToDict)).1 = .ok occs := by
  induction occs with
  | nil => rfl
  | cons o os ih =>
    have hd := dispatchOcc_occToDict o (h o (List.mem_cons_self o os))
    have ht := ih (fun x hx => h x (List.mem_cons_of_mem _ hx))
    simp only [List.map_cons, parseEntries, hd, ht, Except.map]

/-- C3 counterexample: the dict round trip fails on a `Waiting`
occurrence — `Waiting(**content)` splats the content mapping against the
single parameter `waiting_on`, raising `TypeError`. -/
theorem c3_counterexample :
    momentParse (.dict (momentToDict ⟨"m1", [.waiting (.m [("a", "b")])]⟩))
      = .error "TypeError: keyword arguments do not match the signature" := rfl

/-- C3 (amended): parsing `m.to_dict()` reproduces `m` structurally for
Moments whose occurrences avoid the splat-incompatible fenced variants
`Waiting`, `Resuming`, `Working`, `Action` (and the untypable
empty-string `Context` content); for those variants the round trip
raises `TypeError` instead. -/
theorem c3_dict_roundtrip (m : Moment) (h : ∀ o ∈ m.occurrences, dictSafe o) :
    momentParse (.dict (momentToDict m)) = .ok m := by
  have hp := parseEntries_map_toDict m.occurrences h
  simp only [momentParse, momentParseDict, momentToDict, hp, Except.map]

/-- C3 witness: a concrete two-occurrence Moment round trips. -/
theorem c3_dict_roundtrip_witness :
    momentParse (.dict (momentToDict ⟨"m1", [.self "e" "s", .context (.m [("k", "v")])]⟩))
      = .ok ⟨"m1", [.self "e" "s", .context (.m [("k", "v")])]⟩ := by
  refine c3_dict_roundtrip _ ?_
  intro o ho
  simp only [List.mem_cons, List.mem_singleton] at ho
  rcases ho with rfl | rfl | h
  · trivial
  · show Val.m [("k", "v")] ≠ Val.s ""
    decide
  · exact absurd h (List.not_mem_nil o)

/-- On a successful dict parse, the only side effect on the input is the
removal of the `kind` key from every occurrence entry. -/
theorem parseEntries_snd_of_ok (es : List OccEntry) (os : List Occurrence)
    (h : (parseEntries es).1 = .ok os) :
    (parseEntries es).2 = es.map (fun e => (⟨none, e.content⟩ : OccEntry)) := by
  induction es generalizing os with
  | nil => rfl
  | cons e rest ih =>
    simp only [parseEntries] at h ⊢
    cases hd : dispatchOcc e.kind e.content with
    | error msg => rw [hd] at h; exact absurd h (by simp)
    | ok oo =>
      rw [hd] at h
      cases oo with
      | none =>
        dsimp only at h ⊢
        simp only [List.map_cons, List.cons.injEq, true_and]
        exact ih os h
      | some o =>
        dsimp only at h ⊢
        simp only [List.map_cons, List.cons.injEq, true_and]
        cases hr : (parseEntries rest).1 with
        | error msg => rw [hr] at h; exact absurd h (by simp [Except.map])
        | ok os' => exact ih os' hr

/-- C8 counterexample: parsing a dict mutates it — after the call the
occurrence entry has lost its `kind` key, so the input mapping is not
left unchanged. -/
theorem c8_counterexample :
    (momentParseDict ⟨some "m1", [⟨some "Begin", some (.s "")⟩]⟩).2
        = ⟨some "m1", [⟨none, some (.s "")⟩]⟩ ∧
    (momentParseDict ⟨some "m1", [⟨some "Begin", some (.s "")⟩]⟩).2
        ≠ ⟨some "m1", [⟨some "Begin", some (.s "")⟩]⟩ :=
  ⟨rfl, by decide⟩

/-- C8 (amended): `Moment.parse` on a mapping constructs new values and
has exactly one side effect on its input: on a successful parse the
`kind` key of every occurrence entry is popped (removed); the `id` key
and the `content` values are left unchanged. -/
theorem c8_parse_dict_effect (d : MomentDict) (r : String × List Occurrence)
    (h : (momentParseDict d).1 = .ok r) :
    (momentParseDict d).2
      = ⟨d.id, d.occurrences.map (fun e => (⟨none, e.content⟩ : OccEntry))⟩ := by
  cases hid : d.id with
  | none => simp only [momentParseDict, hid] at h; exact absurd h (by simp)
  | some i =>
    simp only [momentParseDict, hid] at h ⊢
    cases hr : (parseEntries d.occurrences).1 with
    | error msg => rw [hr] at h; exact absurd h (by simp [Except.map])
    | ok os =>
      rw [parseEntries_snd_of_ok d.occurrences os hr]

/-- C8 witness: the amended effect at a concrete input. -/
theorem c8_parse_dict_effect_witness :
    (momentParseDict ⟨some "m2", [⟨some "Self",
        some (.m [("emotion", "e"), ("says", "s")])⟩]⟩).2
      = ⟨some "m2", [⟨none, some (.m [("emotion", "e"), ("says", "s")])⟩]⟩ :=
  c8_parse_dict_effect _ ("m2", [.self "e" "s"]) rfl

/-- A literal consumes itself. -/
theorem lit_self (l cs : List Char) : lit l (l ++ cs) = some cs := by
  induction l with
  | nil => rfl
  | cons c ls ih => simp [lit, ih]

/-- The first matching ordered-choice alternative wins. -/
theorem orO_some {α : Type} (x : α) (y : Option α) : orO (some x) y = some x := rfl

/-- A failing ordered-choice alternative passes control on. -/
theorem orO_none {α : Type} (y : Option α) : orO none y = y := rfl

/-- Blank-line skipping leaves a line that does not start blank. -/
theorem skipNewlines_cons_ne {c : Char} (h : c ≠ '\n') (r : List Char) :
    skipNewlines (c :: r) = c :: r := by simp [skipNewlines, h]

/-- Comment skipping leaves input that does not start with a hash. -/
theorem dropComments_no_hash (fuel : Nat) (cs : List Char)
    (h : ∀ c r, cs = c :: r → c ≠ '#') : dropComments fuel cs = cs := by
  cases fuel with
  | zero => rfl
  | succ n =>
    cases cs with
    | nil => rfl
    | cons c r => simp [dropComments, h c r rfl]

theorem takeToChar_spec (c : Char) :
    ∀ (pre : List Char), c ∉ pre →
      ∀ rest, takeToChar c (pre ++ c :: rest) = some (pre, rest)
  | [], _, rest => by simp [takeToChar]
  | d :: pre', h, rest => by
    rw [List.mem_cons, not_or] at h
    have hd : ¬d = c := fun he => h.1 he.symm
    simp [takeToChar, hd, takeToChar_spec c pre' h.2 rest]

theorem takeToCharNoNl_spec (c : Char) :
    ∀ (pre : List Char), c ∉ pre → '\n' ∉ pre →
      ∀ rest, takeToCharNoNl c (pre ++ c :: rest) = some (pre, rest)
  | [], _, _, rest => by simp [takeToCharNoNl]
  | d :: pre', h1, h2, rest => by
    rw [List.mem_cons, not_or] at h1 h2
    have hd1 : ¬d = c := fun he => h1.1 he.symm
    have hd2 : ¬d = '\n' := fun he => h2.1 he.symm
    simp [takeToCharNoNl, hd1, hd2, takeToCharNoNl_spec c pre' h1.2 h2.2 rest]

theorem restOfLine_spec :
    ∀ (pre : List Char), '\n' ∉ pre →
      ∀ rest, restOfLine (pre ++ '\n' :: rest) = (pre, rest)
  | [], _, rest => by simp [restOfLine]
  | d :: pre', h, rest => by
    rw [List.mem_cons, not_or] at h
    have hd : ¬d = '\n' := fun he => h.1 he.symm
    simp [restOfLine, hd, restOfLine_spec pre' h.2 rest]

theorem restOfLine_no_nl :
    ∀ (cs : List Char), '\n' ∉ cs → restOfLine cs = (cs, [])
  | [], _ => rfl
  | d :: cs', h => by
    rw [List.mem_cons, not_or] at h
    have hd : ¬d = '\n' := fun he => h.1 he.symm
    simp [restOfLine, hd, restOfLine_no_nl cs' h.2]

/-- The single-line quoted body scanner captures an escape-free text up
to the closing quote verbatim. -/
theorem qScan_spec :
    ∀ (pre : List Char), '"' ∉ pre → '\n' ∉ pre → '\\' ∉ pre →
      ∀ rest, qScan (pre ++ '"' :: rest) = some (pre, rest)
  | [], _, _, _, rest => by cases rest <;> simp [qScan]
  | d :: pre', h1, h2, h3, rest => by
    rw [List.mem_cons, not_or] at h1 h2 h3
    have hd1 : ¬d = '"' := fun he => h1.1 he.symm
    have hd2 : ¬d = '\n' := fun he => h2.1 he.symm
    have hd3 : ¬d = '\\' := fun he => h3.1 he.symm
    have ih := qScan_spec pre' h1.2 h2.2 h3.2 rest
    cases pre' with
    | nil => simp only [List.nil_append] at ih ⊢; simp [qScan, hd1, hd2, hd3, ih]
    | cons c2 pre'' =>
      simp only [List.cons_append] at ih ⊢
      simp [qScan, hd1, hd2, hd3, ih]

/-- The triple-delimiter scanner captures a delimiter-free body. -/
theorem tripleScan_spec (q : Char) :
    ∀ (pre : List Char), q ∉ pre →
      ∀ rest, tripleScan q (pre ++ q :: q :: q :: rest) = some (pre, rest)
  | [], _, rest => by simp [tripleScan]
  | d :: pre', h, rest => by
    rw [List.mem_cons, not_or] at h
    have hd : ¬d = q := fun he => h.1 he.symm
    have ih := tripleScan_spec q pre' h.2 rest
    cases pre' with
    | nil =>
      simp only [List.nil_append] at ih ⊢
      simp [tripleScan, hd, ih]
    | cons c2 pre'' =>
      rw [List.mem_cons, not_or] at h
      have hc2 : ¬c2 = q := fun he => h.2.1 he.symm
      cases pre'' with
      | nil =>
        simp only [List.cons_append, List.nil_append] at ih ⊢
        simp [tripleScan, hd, hc2, ih]
      | cons c3 pre''' =>
        simp only [List.cons_append] at ih ⊢
        simp [tripleScan, hd, hc2, ih]

/-- Escaping is the identity on quote-free text. -/
theorem escQ_of_not_mem : ∀ {l : List Char}, '"' ∉ l → escQ l = l
  | [], _ => rfl
  | c :: r, h => by
    rw [List.mem_cons, not_or] at h
    have hc : ¬c = '"' := fun he => h.1 he.symm
    simp [escQ, hc, escQ_of_not_mem h.2]

/-- Escaping never introduces or removes newlines. -/
theorem mem_nl_escQ : ∀ (l : List Char), '\n' ∈ escQ l ↔ '\n' ∈ l
  | [] => Iff.rfl
  | c :: r => by
    by_cases hc : c = '"' <;>
      simp [escQ, hc, mem_nl_escQ r]

/-- Escaping strictly lengthens any text containing a quote. -/
theorem escQ_length_lt : ∀ {l : List Char}, '"' ∈ l → l.length < (escQ l).length := by
  intro l hl
  induction l with
  | nil => cases hl
  | cons c r ih =>
    have hle : ∀ l' : List Char, l'.length ≤ (escQ l').length := by
      intro l'
      induction l' with
      | nil => exact Nat.le_refl 0
      | cons d r' ih' =>
        by_cases hd : d = '"' <;> simp [escQ, hd] <;> omega
    rw [List.mem_cons] at hl
    by_cases hc : c = '"'
    · have := hle r
      simp [escQ, hc]
      omega
    · rcases hl with he | hm
      · exact absurd he.symm hc
      · have := ih hm
        simp [escQ, hc]
        omega

/-- The quoted-says rendering in the single-line case. -/
theorem saysChars_q {sv : String} (h : '\n' ∉ sv.data) :
    saysChars sv = '"' :: (escQ sv.data ++ ['"']) := by
  have hn : '\n' ∉ escQ sv.data := fun hm => h ((mem_nl_escQ sv.data).mp hm)
  simp [saysChars, hn]

/-- The quoted-says rendering in the embedded-newline case. -/
theorem saysChars_tq {sv : String} (hn : '\n' ∈ sv.data) (hq : '"' ∉ sv.data) :
    saysChars sv = '"' :: '"' :: '"' :: (sv.data ++ ['"', '"', '"']) := by
  have he := escQ_of_not_mem hq
  have hn' : '\n' ∈ escQ sv.data := by rw [he]; exact hn
  simp only [saysChars, he, if_pos hn]
  simp [List.append_assoc]

/-- The says-string scanner reads a safe says value back verbatim. -/
theorem saysScan_spec (sv : String) (hq : '"' ∉ sv.data) (hb : '\\' ∉ sv.data)
    (rest : List Char) :
    saysScan (saysChars sv ++ '\n' :: rest) = some (sv.data, '\n' :: rest) := by
  by_cases hn : '\n' ∈ sv.data
  · rw [saysChars_tq hn hq]
    have hts := tripleScan_spec '"' sv.data hq ('\n' :: rest)
    simp only [List.cons_append, List.append_assoc, List.cons_append] at hts ⊢
    simp [saysScan, tqScan, hts]
  · rw [saysChars_q hn, escQ_of_not_mem hq]
    have hqs := qScan_spec sv.data hq hn hb ('\n' :: rest)
    cases hd : sv.data with
    | nil => simp [saysScan, qScan]
    | cons c cs =>
      rw [hd] at hqs hq
      rw [List.mem_cons, not_or] at hq
      have hc1 : ¬c = '"' := fun he => hq.1 he.symm
      simp only [List.cons_append, List.append_assoc] at hqs ⊢
      cases cs with
      | nil =>
        simp only [List.nil_append] at hqs ⊢
        simp [saysScan, hc1, hqs]
      | cons c2 cs' =>
        simp only [List.cons_append] at hqs ⊢
        simp [saysScan, hc1, hqs]

/-- The optional-emotion-plus-says group reads safe fields back. -/
theorem emoSaysScan_spec (em sv : String) (he : emoSafe em) (hs : saysSafe sv)
    (rest : List Char) :
    emoSaysScan (emotionChars em ++ (saysChars sv ++ '\n' :: rest))
      = some (em, sv, '\n' :: rest) := by
  obtain ⟨hq, hb⟩ := hs
  have hsays := saysScan_spec sv hq hb rest
  by_cases hem : em = ""
  · subst hem
    have hcons : ∃ w, saysChars sv = '"' :: w := by
      by_cases hn : '\n' ∈ sv.data
      · exact ⟨_, saysChars_tq hn hq⟩
      · exact ⟨_, saysChars_q hn⟩
    obtain ⟨w, hw⟩ := hcons
    have hec : emotionChars "" = [] := rfl
    rw [hec, List.nil_append, hw]
    simp only [List.cons_append]
    simp only [emoSaysScan]
    rw [if_neg (by decide)]
    have hs2 : saysScan ('"' :: (w ++ '\n' :: rest)) = some (sv.data, '\n' :: rest) := by
      rw [← List.cons_append, ← hw]
      exact hsays
    rw [hs2]
    rfl
  · obtain ⟨hp, hnl⟩ := he
    rw [show emotionChars em = '(' :: (em.data ++ [')', ' ']) from by
      simp [emotionChars, hem]]
    have htk := takeToCharNoNl_spec ')' em.data hp hnl
      (' ' :: (saysChars sv ++ '\n' :: rest))
    simp only [List.cons_append, List.append_assoc]
    simp only [List.cons_append] at htk
    simp [emoSaysScan, htk, hsays]

/-- Characters of the dumped lines of a safe mapping are letters,
colons, spaces or newlines. -/
theorem mem_yamlLines {c : Char} :
    ∀ {kvs : List (String × String)}, safeKvs kvs → c ∈ yamlLines kvs →
      c.isAlpha ∨ c = ':' ∨ c = ' ' ∨ c = '\n'
  | [], _, hm => absurd hm (List.not_mem_nil c)
  | [kv], h, hm => by
    obtain ⟨hk, hv⟩ := h kv (List.mem_singleton.mpr rfl)
    simp only [yamlLines] at hm
    rcases List.mem_append.mp hm with hk' | hm1
    · exact Or.inl (hk.2 c hk')
    rcases List.mem_cons.mp hm1 with rfl | hm2
    · exact Or.inr (Or.inl rfl)
    rcases List.mem_cons.mp hm2 with rfl | hv'
    · exact Or.inr (Or.inr (Or.inl rfl))
    · exact Or.inl (hv.2 c hv')
  | kv :: kv2 :: rest, h, hm => by
    obtain ⟨hk, hv⟩ := h kv (List.mem_cons_self kv _)
    have hrec : safeKvs (kv2 :: rest) := fun x hx => h x (List.mem_cons_of_mem _ hx)
    simp only [yamlLines] at hm
    rcases List.mem_append.mp hm with hm1 | hm2
    · rcases List.mem_append.mp hm1 with hk' | hm3
      · exact Or.inl (hk.2 c hk')
      rcases List.mem_cons.mp hm3 with rfl | hm4
      · exact Or.inr (Or.inl rfl)
      rcases List.mem_cons.mp hm4 with rfl | hv'
      · exact Or.inr (Or.inr (Or.inl rfl))
      · exact Or.inl (hv.2 c hv')
    · rcases List.mem_cons.mp hm2 with rfl | hr
      · exact Or.inr (Or.inr (Or.inr rfl))
      · exact mem_yamlLines hrec hr

/-- A single dumped line contains no newline. -/
theorem line_no_nl {k v : String} (hk : alphaStr k) (hv : alphaStr v) :
    '\n' ∉ k.data ++ ':' :: ' ' :: v.data := by
  intro hm
  simp only [List.mem_append, List.mem_cons] at hm
  rcases hm with h | h | h | h
  · exact absurd (hk.2 '\n' h) (by decide)
  · exact absurd h (by decide)
  · exact absurd h (by decide)
  · exact absurd (hv.2 '\n' h) (by decide)

/-- The dumped lines of a nonempty safe mapping start with a letter. -/
theorem yamlLines_head {kv : String × String} {rest : List (String × String)}
    (h : safeKvs (kv :: rest)) :
    ∃ c cs, yamlLines (kv :: rest) = c :: cs ∧ c.isAlpha := by
  obtain ⟨⟨hk1, hk2⟩, _⟩ := h kv (List.mem_cons_self kv _)
  cases hd : kv.1.data with
  | nil => exact absurd hd hk1
  | cons c cs' =>
    have hc : c.isAlpha := hk2 c (hd ▸ List.mem_cons_self c cs')
    cases rest with
    | nil =>
      refine ⟨c, cs' ++ ':' :: ' ' :: kv.2.data, ?_, hc⟩
      simp only [yamlLines, hd, List.cons_append]
    | cons kv2 rest' =>
      refine ⟨c, cs' ++ ':' :: ' ' :: (kv.2.data ++ '\n' :: yamlLines (kv2 :: rest')), ?_, hc⟩
      simp only [yamlLines, hd, List.cons_append, List.append_assoc]

theorem yamlLineParse_spec (k v : String) (hk : ':' ∉ k.data) :
    yamlLineParse (k.data ++ ':' :: ' ' :: v.data) = some (k, v) := by
  simp [yamlLineParse, takeToChar_spec ':' k.data hk (' ' :: v.data)]

/-- The line count of a safe mapping is bounded by the dump length. -/
theorem yamlLines_length : ∀ (kvs : List (String × String)),
    kvs.length ≤ (yamlLines kvs).length + 1
  | [] => by simp
  | [kv] => by simp [yamlLines]
  | kv :: kv2 :: rest => by
    have ih := yamlLines_length (kv2 :: rest)
    simp only [List.length_cons] at ih
    simp only [yamlLines, List.length_append, List.length_cons]
    omega

/-- The multi-line pair parser inverts the dump of a safe mapping. -/
theorem yamlParsePairs_spec :
    ∀ (kvs : List (String × String)), safeKvs kvs → kvs ≠ [] →
      ∀ fuel, kvs.length ≤ fuel →
        yamlParsePairs fuel (yamlLines kvs) = some kvs
  | [], _, hne, _, _ => absurd rfl hne
  | [kv], h, _, fuel, hf => by
    obtain ⟨hk, hv⟩ := h kv (List.mem_singleton.mpr rfl)
    cases fuel with
    | zero => simp at hf
    | succ f =>
      have hline := restOfLine_no_nl _ (line_no_nl hk hv)
      simp only [yamlLines, yamlParsePairs, hline, yamlLineParse_spec kv.1 kv.2 (fun hm =>
        absurd (hk.2 ':' hm) (by decide))]
      rfl
  | kv :: kv2 :: rest, h, _, fuel, hf => by
    obtain ⟨hk, hv⟩ := h kv (List.mem_cons_self kv _)
    have hrec : safeKvs (kv2 :: rest) := fun x hx => h x (List.mem_cons_of_mem _ hx)
    cases fuel with
    | zero => simp at hf
    | succ f =>
      have hf' : (kv2 :: rest).length ≤ f := by
        simp only [List.length_cons] at hf ⊢
        omega
      have ih := yamlParsePairs_spec (kv2 :: rest) hrec (by simp) f hf'
      have hline := restOfLine_spec _ (line_no_nl hk hv) (yamlLines (kv2 :: rest))
      obtain ⟨c, cs, hhead, _⟩ := yamlLines_head hrec
      simp only [yamlLines, List.append_assoc, List.cons_append] at hline ⊢
      simp only [yamlParsePairs, hline, yamlLineParse_spec kv.1 kv.2 (fun hm =>
        absurd (hk.2 ':' hm) (by decide))]
      rw [if_neg (by rw [hhead]; simp), ih]
      rfl

/-- Dump-then-load is the identity on safe fenced contents, whose dump
is also backtick-free. -/
theorem fence_load (v : Val) (h : fenceVal v) :
    '`' ∉ yamlDump v ∧ yamlLoad (yamlDump v) = v := by
  cases v with
  | s str =>
    have hstr : str = "" := h
    subst hstr
    exact ⟨by decide, rfl⟩
  | m kvs =>
    cases kvs with
    | nil => exact absurd h (by simp [fenceVal])
    | cons kv rest =>
      have hsafe : safeKvs (kv :: rest) := h
      have hbt : '`' ∉ yamlDump (.m (kv :: rest)) := by
        intro hm
        rcases mem_yamlLines hsafe hm with ha | h1 | h1 | h1
        · exact absurd ha (by decide)
        · exact absurd h1 (by decide)
        · exact absurd h1 (by decide)
        · exact absurd h1 (by decide)
      refine ⟨hbt, ?_⟩
      obtain ⟨c, cs, hhead, hca⟩ := yamlLines_head hsafe
      have hg1 : yamlLines (kv :: rest) ≠ "''".data := by
        rw [hhead]
        intro he
        have : c = '\'' := by
          have := congrArg (fun l => l.head?) he
          simpa using this
        rw [this] at hca
        exact absurd hca (by decide)
      have hg2 : yamlLines (kv :: rest) ≠ ['\x7b', '\x7d'] := by
        rw [hhead]
        intro he
        have : c = '\x7b' := by
          have := congrArg (fun l => l.head?) he
          simpa using this
        rw [this] at hca
        exact absurd hca (by decide)
      have hpp := yamlParsePairs_spec (kv :: rest) hsafe (by simp)
        ((yamlLines (kv :: rest)).length + 1)
        (Nat.le_of_lt_succ (Nat.lt_succ_of_le (yamlLines_length (kv :: rest))))
      simp only [yamlDump, yamlLoad, if_neg hg1, if_neg hg2, hpp]

/-- Dump-then-load is the identity on safe `Context` contents. -/
theorem ctx_load (v : Val) (h : ctxVal v) :
    '`' ∉ yamlDump v ∧ yamlLoad (yamlDump v) = v := by
  cases v with
  | s str => exact absurd h (by simp [ctxVal])
  | m kvs =>
    cases kvs with
    | nil => exact ⟨by decide, rfl⟩
    | cons kv rest => exact fence_load (.m (kv :: rest)) h

/-- The fenced-kind constructors keep their own safe content unchanged. -/
theorem fence_init_eq (v : Val) (h : fenceVal v) : pyOrVal (.s "") (some v) = v := by
  cases v with
  | s str =>
    have hstr : str = "" := h
    subst hstr
    rfl
  | m kvs =>
    cases kvs with
    | nil => exact absurd h (by simp [fenceVal])
    | cons kv rest => rfl

/-- The `Context` constructor keeps its own safe content unchanged. -/
theorem ctx_init_eq (v : Val) (h : ctxVal v) : pyOrVal (.m []) (some v) = v := by
  cases v with
  | s str => exact absurd h (by simp [ctxVal])
  | m kvs => cases kvs <;> rfl

/-- First-occurrence capture: when the distinguishing character of the
pattern (its first occurrence, at index `k`) appears neither earlier in
the pattern nor in the prefix, the scan stops exactly at the appended
pattern. -/
theorem takeUntilLit_spec (pat : List Char) (k : Nat) (q : Char)
    (hk : pat.get? k = some q) (hq : q ∉ pat.take k) :
    ∀ (pre : List Char), q ∉ pre →
      ∀ rest, takeUntilLit pat (pre ++ (pat ++ rest)) = some (pre, rest)
  | [], _, rest => by
    cases hp : pat with
    | nil => rw [hp] at hk; cases hk
    | cons p ps =>
      have hpf : pat.isPrefixOf (pat ++ rest) = true :=
        List.isPrefixOf_iff_prefix.mpr (List.prefix_append pat rest)
      rw [hp] at hpf
      simp only [List.nil_append, List.cons_append] at hpf ⊢
      simp only [takeUntilLit, hpf, if_true]
      simp only [List.length_cons, List.drop_succ_cons]
      rw [List.drop_left]
  | d :: pre', h, rest => by
    have hkl : k < pat.length := by
      rcases List.get?_eq_some.mp hk with ⟨hl, _⟩
      exact hl
    have hnp : ¬pat.isPrefixOf (d :: (pre' ++ (pat ++ rest))) = true := by
      intro hb
      have hpf := List.isPrefixOf_iff_prefix.mp hb
      have htake := List.prefix_iff_eq_take.mp hpf
      have hget : (d :: (pre' ++ (pat ++ rest))).get? k = some q := by
        rw [htake] at hk
        rwa [List.get?_take hkl] at hk
      rw [show d :: (pre' ++ (pat ++ rest)) = (d :: pre') ++ (pat ++ rest) from rfl] at hget
      by_cases hlen : k < (d :: pre').length
      · rw [List.get?_append hlen] at hget
        exact h (List.get?_mem hget)
      · push_neg at hlen
        rw [List.get?_append_right hlen] at hget
        have hj : k - (d :: pre').length < k := by
          simp only [List.length_cons] at hlen ⊢
          omega
        rw [List.get?_append (by omega)] at hget
        have : q ∈ pat.take k := by
          have := List.get?_take hj (l := pat)
          exact List.get?_mem (by rw [this]; exact hget)
        exact hq this
    rw [List.mem_cons, not_or] at h
    have ih := takeUntilLit_spec pat k q hk hq pre' h.2 rest
    simp [takeUntilLit, hnp, ih]

theorem tryInstructions_spec (c : String) (h : '"' ∉ c.data) (rest : List Char) :
    tryInstructions ("Instructions: \"\"\"".data ++ (c.data ++ ('"' :: '"' :: '"' :: '\n' :: rest)))
      = some (.instructions c, rest) := by
  have hts := tripleScan_spec '"' c.data h ('\n' :: rest)
  unfold tryInstructions tqScan
  rw [lit_self]
  simp only [bind, Option.bind]
  rw [hts]
  rfl

theorem tryExample_spec (t e : String) (ht : '\'' ∉ t.data) (he : '\'' ∉ e.data)
    (rest : List Char) :
    tryExample ("Example: ".data ++ (t.data ++ (" - '''".data ++
        (e.data ++ ('\'' :: '\'' :: '\'' :: '\n' :: rest)))))
      = some (.exampleOcc t e, rest) := by
  have htu := takeUntilLit_spec " - '''".data 3 '\'' (by decide) (by decide) t.data ht
    (e.data ++ ('\'' :: '\'' :: '\'' :: '\n' :: rest))
  have hts := tripleScan_spec '\'' e.data he ('\n' :: rest)
  unfold tryExample tsqScan
  rw [lit_self]
  simp only [bind, Option.bind]
  rw [htu]
  simp only [bind, Option.bind]
  rw [hts]
  rfl

theorem tryContext_spec (v : Val) (h : ctxVal v) (rest : List Char) :
    tryContext ("Context: ```".data ++ (yamlDump v ++ ('`' :: '`' :: '`' :: '\n' :: rest)))
      = some (.context v, rest) := by
  obtain ⟨hbt, hload⟩ := ctx_load v h
  have hts := tripleScan_spec '`' (yamlDump v) hbt ('\n' :: rest)
  unfold tryContext fenceScan
  rw [lit_self]
  simp only [bind, Option.bind]
  rw [hts]
  simp only [bind, Option.bind, expectNl]
  rw [hload]
  simp only [Context.init, ctx_init_eq v h]
  rfl

theorem tryWaiting_spec (v : Val) (h : fenceVal v) (rest : List Char) :
    tryWaiting ("Waiting: ```".data ++ (yamlDump v ++ ('`' :: '`' :: '`' :: '\n' :: rest)))
      = some (.waiting v, rest) := by
  obtain ⟨hbt, hload⟩ := fence_load v h
  have hts := tripleScan_spec '`' (yamlDump v) hbt ('\n' :: rest)
  unfold tryWaiting fenceScan
  rw [lit_self]
  simp only [bind, Option.bind]
  rw [hts]
  simp only [bind, Option.bind, expectNl]
  rw [hload]
  simp only [Waiting.init, fence_init_eq v h]
  rfl

theorem tryResuming_spec (v : Val) (h : fenceVal v) (rest : List Char) :
    tryResuming ("Resuming: ```".data ++ (yamlDump v ++ ('`' :: '`' :: '`' :: '\n' :: rest)))
      = some (.resuming v, rest) := by
  obtain ⟨hbt, hload⟩ := fence_load v h
  have hts := tripleScan_spec '`' (yamlDump v) hbt ('\n' :: rest)
  unfold tryResuming fenceScan
  rw [lit_self]
  simp only [bind, Option.bind]
  rw [hts]
  simp only [bind, Option.bind, expectNl]
  rw [hload]
  simp only [Resuming.init, fence_init_eq v h]
  rfl

theorem tryWorking_spec (v : Val) (h : fenceVal v) (rest : List Char) :
    tryWorking ("Working: ```".data ++ (yamlDump v ++ ('`' :: '`' :: '`' :: '\n' :: rest)))
      = some (.working v, rest) := by
  obtain ⟨hbt, hload⟩ := fence_load v h
  have hts := tripleScan_spec '`' (yamlDump v) hbt ('\n' :: rest)
  unfold tryWorking fenceScan
  rw [lit_self]
  simp only [bind, Option.bind]
  rw [hts]
  simp only [bind, Option.bind, expectNl]
  rw [hload]
  simp only [Working.init, fence_init_eq v h]
  rfl

theorem tryAction_spec (v : Val) (h : fenceVal v) (rest : List Char) :
    tryAction ("Action: ```".data ++ (yamlDump v ++ ('`' :: '`' :: '`' :: '\n' :: rest)))
      = some (.action v, rest) := by
  obtain ⟨hbt, hload⟩ := fence_load v h
  have hts := tripleScan_spec '`' (yamlDump v) hbt ('\n' :: rest)
  unfold tryAction fenceScan
  rw [lit_self]
  simp only [bind, Option.bind]
  rw [hts]
  simp only [bind, Option.bind, expectNl]
  rw [hload]
  simp only [Action.init, fence_init_eq v h]
  rfl

theorem trySelf_spec (em sv : String) (he : emoSafe em) (hs : saysSafe sv)
    (rest : List Char) :
    trySelf ("Self: ".data ++ (emotionChars em ++ (saysChars sv ++ '\n' :: rest)))
      = some (.self em sv, rest) := by
  have hes := emoSaysScan_spec em sv he hs rest
  unfold trySelf
  rw [lit_self]
  simp only [bind, Option.bind]
  rw [hes]
  rfl

theorem tryRejected_spec (em sv : String) (he : emoSafe em) (hs : saysSafe sv)
    (rest : List Char) :
    tryRejected ("Rejected: ".data ++ (emotionChars em ++ (saysChars sv ++ '\n' :: rest)))
      = some (.rejected em sv, rest) := by
  have hes := emoSaysScan_spec em sv he hs rest
  unfold tryRejected
  rw [lit_self]
  simp only [bind, Option.bind]
  rw [hes]
  rfl

theorem tryRevision_spec (em sv : String) (he : emoSafe em) (hs : saysSafe sv)
    (rest : List Char) :
    tryRevision ("Revision: ".data ++ (emotionChars em ++ (saysChars sv ++ '\n' :: rest)))
      = some (.revision em sv, rest) := by
  have hes := emoSaysScan_spec em sv he hs rest
  unfold tryRevision
  rw [lit_self]
  simp only [bind, Option.bind]
  rw [hes]
  rfl

theorem tryMotivation_spec (c : String) (h : '\n' ∉ c.data) (rest : List Char) :
    tryMotivation ("Motivation: ".data ++ (c.data ++ '\n' :: rest))
      = some (.motivation c, rest) := by
  unfold tryMotivation
  rw [lit_self]
  simp only [bind, Option.bind]
  rw [restOfLine_spec c.data h rest]
  rfl

theorem tryObservation_spec (c : String) (h : '\n' ∉ c.data) (rest : List Char) :
    tryObservation ("Observation: ".data ++ (c.data ++ '\n' :: rest))
      = some (.observation c, rest) := by
  unfold tryObservation
  rw [lit_self]
  simp only [bind, Option.bind]
  rw [restOfLine_spec c.data h rest]
  rfl

theorem tryCritiqueRequest_spec (c : String) (h : '\n' ∉ c.data) (rest : List Char) :
    tryCritiqueRequest ("Critique Request: ".data ++ (c.data ++ '\n' :: rest))
      = some (.critiqueRequest c, rest) := by
  unfold tryCritiqueRequest
  rw [lit_self]
  simp only [bind, Option.bind]
  rw [restOfLine_spec c.data h rest]
  rfl

theorem tryCritique_spec (c : String) (h : '\n' ∉ c.data) (rest : List Char) :
    tryCritique ("Critique: ".data ++ (c.data ++ '\n' :: rest))
      = some (.critique c, rest) := by
  unfold tryCritique
  rw [lit_self]
  simp only [bind, Option.bind]
  rw [restOfLine_spec c.data h rest]
  rfl

theorem tryRevisionRequest_spec (c : String) (h : '\n' ∉ c.data) (rest : List Char) :
    tryRevisionRequest ("Revision Request: ".data ++ (c.data ++ '\n' :: rest))
      = some (.revisionRequest c, rest) := by
  unfold tryRevisionRequest
  rw [lit_self]
  simp only [bind, Option.bind]
  rw [restOfLine_spec c.data h rest]
  rfl

theorem tryThought_spec (c : String) (h : '"' ∉ c.data) (rest : List Char) :
    tryThought ("Thought: ".data ++ ('"' :: '"' :: '"' :: (c.data ++ ('"' :: '"' :: '"' :: '\n' :: rest))))
      = some (.thought c, rest) := by
  have hts := tripleScan_spec '"' c.data h ('\n' :: rest)
  unfold tryThought saysScan tqScan
  rw [lit_self]
  simp only [bind, Option.bind, and_self, if_true]
  rw [hts]
  rfl

theorem tryIdentification_spec (kd n : String) (hkd : '"' ∉ kd.data)
    (hn1 : '"' ∉ n.data) (hn2 : '\n' ∉ n.data) (rest : List Char) :
    tryIdentification ("Identification: ".data ++ (kd.data ++ (" is called \"".data ++
        (n.data ++ ('"' :: '.' :: '\n' :: rest)))))
      = some (.identification kd n, rest) := by
  have htu := takeUntilLit_spec " is called \"".data 11 '"' (by decide) (by decide)
    kd.data hkd (n.data ++ ('"' :: '.' :: '\n' :: rest))
  have htn := takeToCharNoNl_spec '"' n.data hn1 hn2 ('.' :: '\n' :: rest)
  unfold tryIdentification
  rw [lit_self]
  simp only [bind, Option.bind]
  rw [htu]
  simp only [bind, Option.bind]
  rw [htn]
  rfl

theorem tryParticipant_spec (n em sv : String) (hn : nameSafe n) (he : emoSafe em)
    (hs : saysSafe sv) (rest : List Char) :
    tryParticipant (n.data ++ (':' :: ' ' :: (emotionChars em ++ (saysChars sv ++ '\n' :: rest))))
      = some (.participant n em sv, rest) := by
  have hne : n.data ≠ [] := by
    intro hd
    rw [nameSafe, hd] at hn
    exact hn
  have hmem : ':' ∉ n.data ∧ '\n' ∉ n.data := by
    cases hd : n.data with
    | nil => exact absurd hd hne
    | cons c cs =>
      rw [nameSafe, hd] at hn
      exact ⟨hd ▸ hn.2.1, hd ▸ hn.2.2⟩
  have htc := takeToCharNoNl_spec ':' n.data hmem.1 hmem.2
    (' ' :: (emotionChars em ++ (saysChars sv ++ '\n' :: rest)))
  have hes := emoSaysScan_spec em sv he hs rest
  unfold tryParticipant
  simp only [bind, Option.bind]
  rw [htc]
  dsimp only
  rw [if_neg hne]
  simp [hes]
  rfl

theorem tryInstructions_none {c : Char} (h : ¬c = 'I') (cs : List Char) :
    tryInstructions (c :: cs) = none := by
  unfold tryInstructions
  rw [show ("Instructions: \"\"\"".data : List Char)
    = 'I' :: "nstructions: \"\"\"".data from rfl]
  simp [bind, Option.bind, lit, h]

theorem tryExample_none {c : Char} (h : ¬c = 'E') (cs : List Char) :
    tryExample (c :: cs) = none := by
  unfold tryExample
  rw [show ("Example: ".data : List Char) = 'E' :: "xample: ".data from rfl]
  simp [bind, Option.bind, lit, h]

theorem tryBegin_none {c : Char} (h : ¬c = 'B') (cs : List Char) :
    tryBegin (c :: cs) = none := by
  unfold tryBegin
  rw [show ("Begin.".data : List Char) = 'B' :: "egin.".data from rfl]
  simp [bind, Option.bind, lit, h]

theorem tryContext_none {c : Char} (h : ¬c = 'C') (cs : List Char) :
    tryContext (c :: cs) = none := by
  unfold tryContext
  rw [show ("Context: ```".data : List Char) = 'C' :: "ontext: ```".data from rfl]
  simp [bind, Option.bind, lit, h]

theorem trySelf_none {c : Char} (h : ¬c = 'S') (cs : List Char) :
    trySelf (c :: cs) = none := by
  unfold trySelf
  rw [show ("Self: ".data : List Char) = 'S' :: "elf: ".data from rfl]
  simp [bind, Option.bind, lit, h]

theorem tryMotivation_none {c : Char} (h : ¬c = 'M') (cs : List Char) :
    tryMotivation (c :: cs) = none := by
  unfold tryMotivation
  rw [show ("Motivation: ".data : List Char) = 'M' :: "otivation: ".data from rfl]
  simp [bind, Option.bind, lit, h]

theorem tryObservation_none {c : Char} (h : ¬c = 'O') (cs : List Char) :
    tryObservation (c :: cs) = none := by
  unfold tryObservation
  rw [show ("Observation: ".data : List Char) = 'O' :: "bservation: ".data from rfl]
  simp [bind, Option.bind, lit, h]

theorem tryThought_none {c : Char} (h : ¬c = 'T') (cs : List Char) :
    tryThought (c :: cs) = none := by
  unfold tryThought
  rw [show ("Thought: ".data : List Char) = 'T' :: "hought: ".data from rfl]
  simp [bind, Option.bind, lit, h]

theorem tryIdentification_none {c : Char} (h : ¬c = 'I') (cs : List Char) :
    tryIdentification (c :: cs) = none := by
  unfold tryIdentification
  rw [show ("Identification: ".data : List Char) = 'I' :: "dentification: ".data from rfl]
  simp [bind, Option.bind, lit, h]

theorem tryWaiting_none {c : Char} (h : ¬c = 'W') (cs : List Char) :
    tryWaiting (c :: cs) = none := by
  unfold tryWaiting
  rw [show ("Waiting: ```".data : List Char) = 'W' :: "aiting: ```".data from rfl]
  simp [bind, Option.bind, lit, h]

theorem tryResuming_none {c : Char} (h : ¬c = 'R') (cs : List Char) :
    tryResuming (c :: cs) = none := by
  unfold tryResuming
  rw [show ("Resuming: ```".data : List Char) = 'R' :: "esuming: ```".data from rfl]
  simp [bind, Option.bind, lit, h]

theorem tryWorking_none {c : Char} (h : ¬c = 'W') (cs : List Char) :
    tryWorking (c :: cs) = none := by
  unfold tryWorking
  rw [show ("Working: ```".data : List Char) = 'W' :: "orking: ```".data from rfl]
  simp [bind, Option.bind, lit, h]

theorem tryAction_none {c : Char} (h : ¬c = 'A') (cs : List Char) :
    tryAction (c :: cs) = none := by
  unfold tryAction
  rw [show ("Action: ```".data : List Char) = 'A' :: "ction: ```".data from rfl]
  simp [bind, Option.bind, lit, h]

theorem tryRejected_none {c : Char} (h : ¬c = 'R') (cs : List Char) :
    tryRejected (c :: cs) = none := by
  unfold tryRejected
  rw [show ("Rejected: ".data : List Char) = 'R' :: "ejected: ".data from rfl]
  simp [bind, Option.bind, lit, h]

theorem tryCritiqueRequest_none {c : Char} (h : ¬c = 'C') (cs : List Char) :
    tryCritiqueRequest (c :: cs) = none := by
  unfold tryCritiqueRequest
  rw [show ("Critique Request: ".data : List Char) = 'C' :: "ritique Request: ".data from rfl]
  simp [bind, Option.bind, lit, h]

theorem tryCritique_none {c : Char} (h : ¬c = 'C') (cs : List Char) :
    tryCritique (c :: cs) = none := by
  unfold tryCritique
  rw [show ("Critique: ".data : List Char) = 'C' :: "ritique: ".data from rfl]
  simp [bind, Option.bind, lit, h]

theorem tryRevisionRequest_none {c : Char} (h : ¬c = 'R') (cs : List Char) :
    tryRevisionRequest (c :: cs) = none := by
  unfold tryRevisionRequest
  rw [show ("Revision Request: ".data : List Char) = 'R' :: "evision Request: ".data from rfl]
  simp [bind, Option.bind, lit, h]

theorem tryRevision_none {c : Char} (h : ¬c = 'R') (cs : List Char) :
    tryRevision (c :: cs) = none := by
  unfold tryRevision
  rw [show ("Revision: ".data : List Char) = 'R' :: "evision: ".data from rfl]
  simp [bind, Option.bind, lit, h]

theorem parseOcc_instructions (c : String) (h : '\"' ∉ c.data) (rest : List Char) :
    parseOcc (occChars (.instructions c) ++ '\n' :: rest) = some (.instructions c, rest) := by
  have hshape : occChars (.instructions c) ++ '\n' :: rest
      = "Instructions: \"\"\"".data ++ (c.data ++ ('\"' :: '\"' :: '\"' :: '\n' :: rest)) := by
    simp [occChars, List.append_assoc]
  have halts : parseOcc ("Instructions: \"\"\"".data ++ (c.data ++ ('\"' :: '\"' :: '\"' :: '\n' :: rest)))
      = firstAlt ("Instructions: \"\"\"".data ++ (c.data ++ ('\"' :: '\"' :: '\"' :: '\n' :: rest)))
          [tryInstructions, tryExample, tryBegin, tryContext, trySelf, tryMotivation, tryObservation, tryThought, tryIdentification, tryWaiting, tryResuming, tryWorking, tryAction, tryRejected, tryCritiqueRequest, tryCritique, tryRevisionRequest, tryRevision, tryParticipant] := rfl
  rw [hshape, halts]
  simp only [firstAlt]
  rw [tryInstructions_spec c h rest, orO_some]

theorem parseOcc_exampleOcc (t e : String) (ht : '\'' ∉ t.data) (he : '\'' ∉ e.data) (rest : List Char) :
    parseOcc (occChars (.exampleOcc t e) ++ '\n' :: rest) = some (.exampleOcc t e, rest) := by
  have hshape : occChars (.exampleOcc t e) ++ '\n' :: rest
      = "Example: ".data ++ (t.data ++ (" - '''".data ++ (e.data ++ ('\'' :: '\'' :: '\'' :: '\n' :: rest)))) := by
    simp [occChars, List.append_assoc]
  have halts : parseOcc ("Example: ".data ++ (t.data ++ (" - '''".data ++ (e.data ++ ('\'' :: '\'' :: '\'' :: '\n' :: rest)))))
      = firstAlt ("Example: ".data ++ (t.data ++ (" - '''".data ++ (e.data ++ ('\'' :: '\'' :: '\'' :: '\n' :: rest)))))
          [tryExample, tryBegin, tryContext, trySelf, tryMotivation, tryObservation, tryThought, tryIdentification, tryWaiting, tryResuming, tryWorking, tryAction, tryRejected, tryCritiqueRequest, tryCritique, tryRevisionRequest, tryRevision, tryParticipant] := rfl
  rw [hshape, halts]
  simp only [firstAlt]
  rw [tryExample_spec t e ht he rest, orO_some]

theorem parseOcc_begin (rest : List Char) :
    parseOcc (occChars .begin ++ '\n' :: rest) = some (.begin, rest) := rfl

theorem parseOcc_context (v : Val) (h : ctxVal v) (rest : List Char) :
    parseOcc (occChars (.context v) ++ '\n' :: rest) = some (.context v, rest) := by
  have hshape : occChars (.context v) ++ '\n' :: rest
      = "Context: ```".data ++ (yamlDump v ++ ('`' :: '`' :: '`' :: '\n' :: rest)) := by
    simp [occChars, List.append_assoc]
  have halts : parseOcc ("Context: ```".data ++ (yamlDump v ++ ('`' :: '`' :: '`' :: '\n' :: rest)))
      = firstAlt ("Context: ```".data ++ (yamlDump v ++ ('`' :: '`' :: '`' :: '\n' :: rest)))
          [tryContext, trySelf, tryMotivation, tryObservation, tryThought, tryIdentification, tryWaiting, tryResuming, tryWorking, tryAction, tryRejected, tryCritiqueRequest, tryCritique, tryRevisionRequest, tryRevision, tryParticipant] := rfl
  rw [hshape, halts]
  simp only [firstAlt]
  rw [tryContext_spec v h rest, orO_some]

theorem parseOcc_self (em sv : String) (he : emoSafe em) (hs : saysSafe sv) (rest : List Char) :
    parseOcc (occChars (.self em sv) ++ '\n' :: rest) = some (.self em sv, rest) := by
  have hshape : occChars (.self em sv) ++ '\n' :: rest
      = "Self: ".data ++ (emotionChars em ++ (saysChars sv ++ '\n' :: rest)) := by
    simp [occChars, List.append_assoc]
  have halts : parseOcc ("Self: ".data ++ (emotionChars em ++ (saysChars sv ++ '\n' :: rest)))
      = firstAlt ("Self: ".data ++ (emotionChars em ++ (saysChars sv ++ '\n' :: rest)))
          [trySelf, tryMotivation, tryObservation, tryThought, tryIdentification, tryWaiting, tryResuming, tryWorking, tryAction, tryRejected, tryCritiqueRequest, tryCritique, tryRevisionRequest, tryRevision, tryParticipant] := rfl
  rw [hshape, halts]
  simp only [firstAlt]
  rw [trySelf_spec em sv he hs rest, orO_some]

theorem parseOcc_motivation (c : String) (h : '\n' ∉ c.data) (rest : List Char) :
    parseOcc (occChars (.motivation c) ++ '\n' :: rest) = some (.motivation c, rest) := by
  have hshape : occChars (.motivation c) ++ '\n' :: rest
      = "Motivation: ".data ++ (c.data ++ '\n' :: rest) := by
    simp [occChars, List.append_assoc]
  have halts : parseOcc ("Motivation: ".data ++ (c.data ++ '\n' :: rest))
      = firstAlt ("Motivation: ".data ++ (c.data ++ '\n' :: rest))
          [tryMotivation, tryObservation, tryThought, tryIdentification, tryWaiting, tryResuming, tryWorking, tryAction, tryRejected, tryCritiqueRequest, tryCritique, tryRevisionRequest, tryRevision, tryParticipant] := rfl
  rw [hshape, halts]
  simp only [firstAlt]
  rw [tryMotivation_spec c h rest, orO_some]

theorem parseOcc_observation (c : String) (h : '\n' ∉ c.data) (rest : List Char) :
    parseOcc (occChars (.observation c) ++ '\n' :: rest) = some (.observation c, '\n' :: rest) := by
  have hshape : occChars (.observation c) ++ '\n' :: rest
      = "Observation: ".data ++ (c.data ++ '\n' :: ('\n' :: rest)) := by
    simp [occChars, List.append_assoc]
  have halts : parseOcc ("Observation: ".data ++ (c.data ++ '\n' :: ('\n' :: rest)))
      = firstAlt ("Observation: ".data ++ (c.data ++ '\n' :: ('\n' :: rest)))
          [tryObservation, tryThought, tryIdentification, tryWaiting, tryResuming, tryWorking, tryAction, tryRejected, tryCritiqueRequest, tryCritique, tryRevisionRequest, tryRevision, tryParticipant] := rfl
  rw [hshape, halts]
  simp only [firstAlt]
  rw [tryObservation_spec c h ('\n' :: rest), orO_some]

theorem parseOcc_thought (c : String) (h : '\"' ∉ c.data) (rest : List Char) :
    parseOcc (occChars (.thought c) ++ '\n' :: rest) = some (.thought c, rest) := by
  have hshape : occChars (.thought c) ++ '\n' :: rest
      = "Thought: ".data ++ ('\"' :: '\"' :: '\"' :: (c.data ++ ('\"' :: '\"' :: '\"' :: '\n' :: rest))) := by
    simp [occChars, List.append_assoc]
  have halts : parseOcc ("Thought: ".data ++ ('\"' :: '\"' :: '\"' :: (c.data ++ ('\"' :: '\"' :: '\"' :: '\n' :: rest))))
      = firstAlt ("Thought: ".data ++ ('\"' :: '\"' :: '\"' :: (c.data ++ ('\"' :: '\"' :: '\"' :: '\n' :: rest))))
          [tryThought, tryIdentification, tryWaiting, tryResuming, tryWorking, tryAction, tryRejected, tryCritiqueRequest, tryCritique, tryRevisionRequest, tryRevision, tryParticipant] := rfl
  rw [hshape, halts]
  simp only [firstAlt]
  rw [tryThought_spec c h rest, orO_some]

theorem parseOcc_identification (kd n : String) (hkd : '\"' ∉ kd.data) (hn1 : '\"' ∉ n.data) (hn2 : '\n' ∉ n.data) (rest : List Char) :
    parseOcc (occChars (.identification kd n) ++ '\n' :: rest) = some (.identification kd n, rest) := by
  have hshape : occChars (.identification kd n) ++ '\n' :: rest
      = "Identification: ".data ++ (kd.data ++ (" is called \"".data ++ (n.data ++ ('\"' :: '.' :: '\n' :: rest)))) := by
    simp [occChars, List.append_assoc]
  have halts : parseOcc ("Identification: ".data ++ (kd.data ++ (" is called \"".data ++ (n.data ++ ('\"' :: '.' :: '\n' :: rest)))))
      = firstAlt ("Identification: ".data ++ (kd.data ++ (" is called \"".data ++ (n.data ++ ('\"' :: '.' :: '\n' :: rest)))))
          [tryIdentification, tryWaiting, tryResuming, tryWorking, tryAction, tryRejected, tryCritiqueRequest, tryCritique, tryRevisionRequest, tryRevision, tryParticipant] := rfl
  rw [hshape, halts]
  simp only [firstAlt]
  rw [tryIdentification_spec kd n hkd hn1 hn2 rest, orO_some]

theorem parseOcc_waiting (v : Val) (h : fenceVal v) (rest : List Char) :
    parseOcc (occChars (.waiting v) ++ '\n' :: rest) = some (.waiting v, rest) := by
  have hshape : occChars (.waiting v) ++ '\n' :: rest
      = "Waiting: ```".data ++ (yamlDump v ++ ('`' :: '`' :: '`' :: '\n' :: rest)) := by
    simp [occChars, List.append_assoc]
  have halts : parseOcc ("Waiting: ```".data ++ (yamlDump v ++ ('`' :: '`' :: '`' :: '\n' :: rest)))
      = firstAlt ("Waiting: ```".data ++ (yamlDump v ++ ('`' :: '`' :: '`' :: '\n' :: rest)))
          [tryWaiting, tryResuming, tryWorking, tryAction, tryRejected, tryCritiqueRequest, tryCritique, tryRevisionRequest, tryRevision, tryParticipant] := rfl
  rw [hshape, halts]
  simp only [firstAlt]
  rw [tryWaiting_spec v h rest, orO_some]

theorem parseOcc_resuming (v : Val) (h : fenceVal v) (rest : List Char) :
    parseOcc (occChars (.resuming v) ++ '\n' :: rest) = some (.resuming v, rest) := by
  have hshape : occChars (.resuming v) ++ '\n' :: rest
      = "Resuming: ```".data ++ (yamlDump v ++ ('`' :: '`' :: '`' :: '\n' :: rest)) := by
    simp [occChars, List.append_assoc]
  have halts : parseOcc ("Resuming: ```".data ++ (yamlDump v ++ ('`' :: '`' :: '`' :: '\n' :: rest)))
      = firstAlt ("Resuming: ```".data ++ (yamlDump v ++ ('`' :: '`' :: '`' :: '\n' :: rest)))
          [tryResuming, tryWorking, tryAction, tryRejected, tryCritiqueRequest, tryCritique, tryRevisionRequest, tryRevision, tryParticipant] := rfl
  rw [hshape, halts]
  simp only [firstAlt]
  rw [tryResuming_spec v h rest, orO_some]

theorem parseOcc_working (v : Val) (h : fenceVal v) (rest : List Char) :
    parseOcc (occChars (.working v) ++ '\n' :: rest) = some (.working v, rest) := by
  have hshape : occChars (.working v) ++ '\n' :: rest
      = "Working: ```".data ++ (yamlDump v ++ ('`' :: '`' :: '`' :: '\n' :: rest)) := by
    simp [occChars, List.append_assoc]
  have halts : parseOcc ("Working: ```".data ++ (yamlDump v ++ ('`' :: '`' :: '`' :: '\n' :: rest)))
      = firstAlt ("Working: ```".data ++ (yamlDump v ++ ('`' :: '`' :: '`' :: '\n' :: rest)))
          [tryWorking, tryAction, tryRejected, tryCritiqueRequest, tryCritique, tryRevisionRequest, tryRevision, tryParticipant] := rfl
  rw [hshape, halts]
  simp only [firstAlt]
  rw [tryWorking_spec v h rest, orO_some]

theorem parseOcc_action (v : Val) (h : fenceVal v) (rest : List Char) :
    parseOcc (occChars (.action v) ++ '\n' :: rest) = some (.action v, rest) := by
  have hshape : occChars (.action v) ++ '\n' :: rest
      = "Action: ```".data ++ (yamlDump v ++ ('`' :: '`' :: '`' :: '\n' :: rest)) := by
    simp [occChars, List.append_assoc]
  have halts : parseOcc ("Action: ```".data ++ (yamlDump v ++ ('`' :: '`' :: '`' :: '\n' :: rest)))
      = firstAlt ("Action: ```".data ++ (yamlDump v ++ ('`' :: '`' :: '`' :: '\n' :: rest)))
          [tryAction, tryRejected, tryCritiqueRequest, tryCritique, tryRevisionRequest, tryRevision, tryParticipant] := rfl
  rw [hshape, halts]
  simp only [firstAlt]
  rw [tryAction_spec v h rest, orO_some]

theorem parseOcc_rejected (em sv : String) (he : emoSafe em) (hs : saysSafe sv) (rest : List Char) :
    parseOcc (occChars (.rejected em sv) ++ '\n' :: rest) = some (.rejected em sv, rest) := by
  have hshape : occChars (.rejected em sv) ++ '\n' :: rest
      = "Rejected: ".data ++ (emotionChars em ++ (saysChars sv ++ '\n' :: rest)) := by
    simp [occChars, List.append_assoc]
  have halts : parseOcc ("Rejected: ".data ++ (emotionChars em ++ (saysChars sv ++ '\n' :: rest)))
      = firstAlt ("Rejected: ".data ++ (emotionChars em ++ (saysChars sv ++ '\n' :: rest)))
          [tryRejected, tryCritiqueRequest, tryCritique, tryRevisionRequest, tryRevision, tryParticipant] := rfl
  rw [hshape, halts]
  simp only [firstAlt]
  rw [tryRejected_spec em sv he hs rest, orO_some]

theorem parseOcc_critiqueRequest (c : String) (h : '\n' ∉ c.data) (rest : List Char) :
    parseOcc (occChars (.critiqueRequest c) ++ '\n' :: rest) = some (.critiqueRequest c, rest) := by
  have hshape : occChars (.critiqueRequest c) ++ '\n' :: rest
      = "Critique Request: ".data ++ (c.data ++ '\n' :: rest) := by
    simp [occChars, List.append_assoc]
  have halts : parseOcc ("Critique Request: ".data ++ (c.data ++ '\n' :: rest))
      = firstAlt ("Critique Request: ".data ++ (c.data ++ '\n' :: rest))
          [tryCritiqueRequest, tryCritique, tryRevisionRequest, tryRevision, tryParticipant] := rfl
  rw [hshape, halts]
  simp only [firstAlt]
  rw [tryCritiqueRequest_spec c h rest, orO_some]

theorem parseOcc_critique (c : String) (h : '\n' ∉ c.data) (rest : List Char) :
    parseOcc (occChars (.critique c) ++ '\n' :: rest) = some (.critique c, rest) := by
  have hshape : occChars (.critique c) ++ '\n' :: rest
      = "Critique: ".data ++ (c.data ++ '\n' :: rest) := by
    simp [occChars, List.append_assoc]
  have halts : parseOcc ("Critique: ".data ++ (c.data ++ '\n' :: rest))
      = firstAlt ("Critique: ".data ++ (c.data ++ '\n' :: rest))
          [tryCritique, tryRevisionRequest, tryRevision, tryParticipant] := rfl
  rw [hshape, halts]
  simp only [firstAlt]
  rw [tryCritique_spec c h rest, orO_some]

theorem parseOcc_revisionRequest (c : String) (h : '\n' ∉ c.data) (rest : List Char) :
    parseOcc (occChars (.revisionRequest c) ++ '\n' :: rest) = some (.revisionRequest c, rest) := by
  have hshape : occChars (.revisionRequest c) ++ '\n' :: rest
      = "Revision Request: ".data ++ (c.data ++ '\n' :: rest) := by
    simp [occChars, List.append_assoc]
  have halts : parseOcc ("Revision Request: ".data ++ (c.data ++ '\n' :: rest))
      = firstAlt ("Revision Request: ".data ++ (c.data ++ '\n' :: rest))
          [tryRevisionRequest, tryRevision, tryParticipant] := rfl
  rw [hshape, halts]
  simp only [firstAlt]
  rw [tryRevisionRequest_spec c h rest, orO_some]

theorem parseOcc_revision (em sv : String) (he : emoSafe em) (hs : saysSafe sv) (rest : List Char) :
    parseOcc (occChars (.revision em sv) ++ '\n' :: rest) = some (.revision em sv, rest) := by
  have hshape : occChars (.revision em sv) ++ '\n' :: rest
      = "Revision: ".data ++ (emotionChars em ++ (saysChars sv ++ '\n' :: rest)) := by
    simp [occChars, List.append_assoc]
  have halts : parseOcc ("Revision: ".data ++ (emotionChars em ++ (saysChars sv ++ '\n' :: rest)))
      = firstAlt ("Revision: ".data ++ (emotionChars em ++ (saysChars sv ++ '\n' :: rest)))
          [tryRevision, tryParticipant] := rfl
  rw [hshape, halts]
  simp only [firstAlt]
  rw [tryRevision_spec em sv he hs rest, orO_some]

theorem parseOcc_participant (n em sv : String) (hn : nameSafe n) (he : emoSafe em)
    (hs : saysSafe sv) (rest : List Char) :
    parseOcc (occChars (.participant n em sv) ++ '\n' :: rest)
      = some (.participant n em sv, rest) := by
  obtain ⟨c, cs, hd⟩ : ∃ c cs, n.data = c :: cs := by
    cases hnd : n.data with
    | nil => rw [nameSafe, hnd] at hn; exact hn.elim
    | cons c cs => exact ⟨c, cs, rfl⟩
  have hinit : c ∉ keywordInitials := by
    rw [nameSafe, hd] at hn
    exact hn.1
  have hne : ∀ d, d ∈ keywordInitials → ¬c = d := fun d hmem he' => hinit (he' ▸ hmem)
  have hshape : occChars (.participant n em sv) ++ '\n' :: rest
      = c :: (cs ++ (':' :: ' ' :: (emotionChars em ++ (saysChars sv ++ '\n' :: rest)))) := by
    simp [occChars, hd, List.append_assoc]
  have hP : tryParticipant
      (c :: (cs ++ (':' :: ' ' :: (emotionChars em ++ (saysChars sv ++ '\n' :: rest)))))
      = some (.participant n em sv, rest) := by
    have hsp := tryParticipant_spec n em sv hn he hs rest
    rw [hd, List.cons_append] at hsp
    exact hsp
  rw [hshape]
  simp only [parseOcc, grammarAlts, firstAlt]
  rw [tryInstructions_none (hne 'I' (by decide)), tryExample_none (hne 'E' (by decide)),
    tryBegin_none (hne 'B' (by decide)), tryContext_none (hne 'C' (by decide)),
    trySelf_none (hne 'S' (by decide)), tryMotivation_none (hne 'M' (by decide)),
    tryObservation_none (hne 'O' (by decide)), tryThought_none (hne 'T' (by decide)),
    tryIdentification_none (hne 'I' (by decide)), tryWaiting_none (hne 'W' (by decide)),
    tryResuming_none (hne 'R' (by decide)), tryWorking_none (hne 'W' (by decide)),
    tryAction_none (hne 'A' (by decide)), tryRejected_none (hne 'R' (by decide)),
    tryCritiqueRequest_none (hne 'C' (by decide)), tryCritique_none (hne 'C' (by decide)),
    tryRevisionRequest_none (hne 'R' (by decide)), tryRevision_none (hne 'R' (by decide))]
  simp only [orO_none]
  rw [hP, orO_some]

/-- Every safe occurrence renders to text starting with a character that
is neither a newline nor a comment hash. -/
theorem occChars_cons (o : Occurrence) (h : SafeOcc o) :
    ∃ c cs, occChars o = c :: cs ∧ c ≠ '\n' ∧ c ≠ '#' := by
  cases o with
  | instructions c => exact ⟨'I', _, rfl, by decide, by decide⟩
  | exampleOcc t e => exact ⟨'E', _, rfl, by decide, by decide⟩
  | begin => exact ⟨'B', _, rfl, by decide, by decide⟩
  | context v => exact ⟨'C', _, rfl, by decide, by decide⟩
  | self em sv => exact ⟨'S', _, rfl, by decide, by decide⟩
  | participant n em sv =>
    obtain ⟨hn, _, _⟩ : nameSafe n ∧ emoSafe em ∧ saysSafe sv := h
    obtain ⟨c, cs, hd⟩ : ∃ c cs, n.data = c :: cs := by
      cases hnd : n.data with
      | nil => rw [nameSafe, hnd] at hn; exact hn.elim
      | cons c cs => exact ⟨c, cs, rfl⟩
    rw [nameSafe, hd] at hn
    refine ⟨c, cs ++ (':' :: ' ' :: (emotionChars em ++ saysChars sv)), ?_, ?_, ?_⟩
    · simp [occChars, hd, List.append_assoc]
    · exact fun he => hn.1 (he ▸ (by decide : '\n' ∈ keywordInitials))
    · exact fun he => hn.1 (he ▸ (by decide : '#' ∈ keywordInitials))
  | motivation c => exact ⟨'M', _, rfl, by decide, by decide⟩
  | observation c => exact ⟨'O', _, rfl, by decide, by decide⟩
  | thought c => exact ⟨'T', _, rfl, by decide, by decide⟩
  | identification k n => exact ⟨'I', _, rfl, by decide, by decide⟩
  | waiting v => exact ⟨'W', _, rfl, by decide, by decide⟩
  | resuming v => exact ⟨'R', _, rfl, by decide, by decide⟩
  | working v => exact ⟨'W', _, rfl, by decide, by decide⟩
  | action v => exact ⟨'A', _, rfl, by decide, by decide⟩
  | rejected em sv => exact ⟨'R', _, rfl, by decide, by decide⟩
  | critiqueRequest c => exact ⟨'C', _, rfl, by decide, by decide⟩
  | critique c => exact ⟨'C', _, rfl, by decide, by decide⟩
  | revisionRequest c => exact ⟨'R', _, rfl, by decide, by decide⟩
  | revision em sv => exact ⟨'R', _, rfl, by decide, by decide⟩

/-- The modelled grammar parses every safe occurrence back from its own
rendering, leaving a tail equivalent to the appended rest up to blank
lines. -/
theorem parseOcc_safe (o : Occurrence) (h : SafeOcc o) (rest : List Char) :
    ∃ tail, parseOcc (occChars o ++ '\n' :: rest) = some (o, tail)
      ∧ skipNewlines tail = skipNewlines rest := by
  cases o with
  | instructions c => exact ⟨rest, parseOcc_instructions c h rest, rfl⟩
  | exampleOcc t e => exact ⟨rest, parseOcc_exampleOcc t e h.2.1 h.2.2 rest, rfl⟩
  | begin => exact ⟨rest, parseOcc_begin rest, rfl⟩
  | context v => exact ⟨rest, parseOcc_context v h rest, rfl⟩
  | self em sv => exact ⟨rest, parseOcc_self em sv h.1 h.2 rest, rfl⟩
  | participant n em sv =>
    exact ⟨rest, parseOcc_participant n em sv h.1 h.2.1 h.2.2 rest, rfl⟩
  | motivation c => exact ⟨rest, parseOcc_motivation c h rest, rfl⟩
  | observation c =>
    exact ⟨'\n' :: rest, parseOcc_observation c h rest, by simp [skipNewlines]⟩
  | thought c => exact ⟨rest, parseOcc_thought c h rest, rfl⟩
  | identification k n =>
    exact ⟨rest, parseOcc_identification k n h.1.2 h.2.2 h.2.1 rest, rfl⟩
  | waiting v => exact ⟨rest, parseOcc_waiting v h rest, rfl⟩
  | resuming v => exact ⟨rest, parseOcc_resuming v h rest, rfl⟩
  | working v => exact ⟨rest, parseOcc_working v h rest, rfl⟩
  | action v => exact ⟨rest, parseOcc_action v h rest, rfl⟩
  | rejected em sv => exact ⟨rest, parseOcc_rejected em sv h.1 h.2 rest, rfl⟩
  | critiqueRequest c => exact ⟨rest, parseOcc_critiqueRequest c h rest, rfl⟩
  | critique c => exact ⟨rest, parseOcc_critique c h rest, rfl⟩
  | revisionRequest c => exact ⟨rest, parseOcc_revisionRequest c h rest, rfl⟩
  | revision em sv => exact ⟨rest, parseOcc_revision em sv h.1 h.2 rest, rfl⟩

/-- The occurrence loop only looks at its input through the blank-line
filter. -/
theorem parseOccs_congr (fuel : Nat) {cs cs' : List Char}
    (h : skipNewlines cs = skipNewlines cs') :
    parseOccs (fuel + 1) cs = parseOccs (fuel + 1) cs' := by
  simp only [parseOccs, h]

/-- The serialized text has at least one character per occurrence. -/
theorem momentTextChars_length (occs : List Occurrence) :
    occs.length ≤ (momentTextChars occs).length := by
  induction occs with
  | nil => simp [momentTextChars]
  | cons o os ih =>
    simp only [momentTextChars, List.length_append, List.length_cons]
    omega

/-- One unfolding of the occurrence loop when the filtered input starts
with a parsable occurrence. -/
theorem parseOccs_step (f : Nat) (cs : List Char) (c : Char) (cs' : List Char)
    (hs : skipNewlines cs = c :: cs') (o : Occurrence) (tail : List Char)
    (hp : parseOcc (c :: cs') = some (o, tail)) :
    parseOccs (f + 1) cs = Except.map (fun l => o :: l) (parseOccs f tail) := by
  simp only [parseOccs, hs]
  rw [hp]

/-- The occurrence loop inverts the serializer on safe occurrence lists,
given enough fuel. -/
theorem parseOccs_text :
    ∀ (occs : List Occurrence), (∀ o ∈ occs, SafeOcc o) →
      ∀ fuel, occs.length < fuel →
        parseOccs fuel (momentTextChars occs) = .ok occs
  | [], _, fuel, hf => by
    cases fuel with
    | zero => exact absurd hf (by simp)
    | succ f => simp [momentTextChars, parseOccs, skipNewlines]
  | o :: os, h, fuel, hf => by
    cases fuel with
    | zero => exact absurd hf (by simp)
    | succ f =>
      have hsafe := h o (List.mem_cons_self o os)
      obtain ⟨tail, hp, hskip⟩ := parseOcc_safe o hsafe (momentTextChars os)
      obtain ⟨c, cs, hcons, hcnl, _⟩ := occChars_cons o hsafe
      have hf' : os.length < f := by
        simp only [List.length_cons] at hf
        omega
      obtain ⟨f', rfl⟩ : ∃ f', f = f' + 1 := ⟨f - 1, by omega⟩
      have hmt : momentTextChars (o :: os) = c :: (cs ++ '\n' :: momentTextChars os) := by
        rw [show momentTextChars (o :: os) = occChars o ++ '\n' :: momentTextChars os from rfl,
          hcons, List.cons_append]
      have hs : skipNewlines (momentTextChars (o :: os))
          = c :: (cs ++ '\n' :: momentTextChars os) := by
        rw [hmt]
        exact skipNewlines_cons_ne hcnl _
      have hp' : parseOcc (c :: (cs ++ '\n' :: momentTextChars os)) = some (o, tail) := by
        rw [← List.cons_append, ← hcons]
        exact hp
      rw [parseOccs_step (f' + 1) _ c _ hs o tail hp',
        parseOccs_congr f' hskip,
        parseOccs_text os (fun x hx => h x (List.mem_cons_of_mem _ hx)) (f' + 1) hf']
      rfl

/-- `Moment.parse` inverts `Moment.__str__` on safe Moments (the id is
reset to the empty string, which the text never carries). -/
theorem momentText_parse (m : Moment) (h : ∀ o ∈ m.occurrences, SafeOcc o) :
    momentParse (.text (momentText m)) = .ok ⟨"", m.occurrences⟩ := by
  have hdc : dropComments (momentTextChars m.occurrences).length
      (momentTextChars m.occurrences) = momentTextChars m.occurrences := by
    apply dropComments_no_hash
    intro c r hcr
    cases hocc : m.occurrences with
    | nil => rw [hocc] at hcr; simp [momentTextChars] at hcr
    | cons o os =>
      obtain ⟨c0, cs0, hcons, _, hch⟩ :=
        occChars_cons o (h o (hocc ▸ List.mem_cons_self o os))
      rw [hocc] at hcr
      rw [show momentTextChars (o :: os) = occChars o ++ '\n' :: momentTextChars os
        from rfl, hcons, List.cons_append] at hcr
      injection hcr with h1 _
      exact h1 ▸ hch
  have hpo := parseOccs_text m.occurrences h ((momentTextChars m.occurrences).length + 1)
    (Nat.lt_succ_of_le (momentTextChars_length _))
  unfold momentParse momentParseText momentText
  dsimp only
  rw [hdc, hpo]
  rfl

/-- C1 counterexample: canonical idempotence fails on a `Self` whose
says contains a double quote — the parser keeps the backslash escapes
raw, so the second serialization escapes them again. -/
theorem c1_counterexample :
    (momentParse (.text (momentText ⟨"m1", [.self "" "she said \"hi\""]⟩))).map momentText
      ≠ .ok (momentText ⟨"m1", [.self "" "she said \"hi\""]⟩) := by
  intro hc
  have h1 : (momentParse (.text (momentText ⟨"m1", [.self "" "she said \"hi\""]⟩))).map momentText
      = .ok "Self: \"she said \\\\\"hi\\\\\"\"\n" := rfl
  have h2 : momentText ⟨"m1", [.self "" "she said \"hi\""]⟩
      = "Self: \"she said \\\"hi\\\"\"\n" := rfl
  rw [h1, h2] at hc
  have h3 := Except.ok.inj hc
  exact absurd h3 (by decide)

/-- C1 (amended): for every Moment whose occurrences are grammar-safe
(no double quotes or backslashes in quoted fields, no newlines in
line-bounded fields, keyword-free participant names, flat safe fenced
contents), serializing, parsing the text and serializing again yields
the identical text; a quoted field containing a double quote breaks the
equation because escapes are re-applied on the second serialization. -/
theorem c1_canonical_idempotence (m : Moment) (h : ∀ o ∈ m.occurrences, SafeOcc o) :
    (momentParse (.text (momentText m))).map momentText = .ok (momentText m) := by
  rw [momentText_parse m h]
  rfl

/-- C1 witness: a concrete safe Moment is idempotent under
parse-then-serialize. -/
theorem c1_canonical_idempotence_witness :
    (momentParse (.text (momentText ⟨"m9",
        [.motivation "win", .self "calm" "hello there"]⟩))).map momentText
      = .ok (momentText ⟨"m9", [.motivation "win", .self "calm" "hello there"]⟩) := by
  refine c1_canonical_idempotence _ ?_
  intro o ho
  simp only [List.mem_cons, List.mem_singleton] at ho
  rcases ho with rfl | rfl | hfalse
  · show '\n' ∉ "win".data
    decide
  · show emoSafe "calm" ∧ saysSafe "hello there"
    constructor
    · show ')' ∉ "calm".data ∧ '\n' ∉ "calm".data
      decide
    · show '"' ∉ "hello there".data ∧ '\\' ∉ "hello there".data
      decide
  · exact absurd hfalse (List.not_mem_nil o)

/-- The escaped rendering never starts with a bare double quote. -/
theorem escQ_head_ne : ∀ (l : List Char) (d : Char) (es : List Char),
    escQ l = d :: es → d ≠ '"'
  | [], d, es, h => by simp [escQ] at h
  | c :: r, d, es, h => by
    by_cases hc : c = '"'
    · rw [escQ, if_pos hc] at h
      injection h with h1 _
      rw [← h1]
      decide
    · rw [escQ, if_neg hc] at h
      injection h with h1 _
      exact h1 ▸ hc

/-- The single-line quoted scanner keeps backslash escapes raw: on an
escaped body it captures the body still escaped. -/
theorem qScan_escQ : ∀ (l : List Char), '\n' ∉ l → '\\' ∉ l →
    ∀ rest, qScan (escQ l ++ '"' :: rest) = some (escQ l, rest)
  | [], _, _, rest => by cases rest <;> simp [escQ, qScan]
  | c :: l', h1, h2, rest => by
    rw [List.mem_cons, not_or] at h1 h2
    have hc1 : ¬c = '\n' := fun he => h1.1 he.symm
    have hc2 : ¬c = '\\' := fun he => h2.1 he.symm
    have ih := qScan_escQ l' h1.2 h2.2 rest
    by_cases hcq : c = '"'
    · subst hcq
      simp only [escQ, if_pos rfl, List.cons_append]
      simp [qScan, ih]
    · simp only [escQ, if_neg hcq, List.cons_append]
      obtain ⟨d, r, hE⟩ : ∃ d r, escQ l' ++ '"' :: rest = d :: r := by
        cases hE : escQ l' ++ '"' :: rest with
        | nil => exact absurd hE (by simp)
        | cons d r => exact ⟨d, r, rfl⟩
      rw [hE]
      have ih' : qScan (d :: r) = some (escQ l', rest) := hE ▸ ih
      simp [qScan, hcq, hc1, hc2, ih']

/-- The says-string scanner returns the still-escaped body of a
single-line quoted says. -/
theorem saysScan_escQ (sv : String) (hn : '\n' ∉ sv.data) (hb : '\\' ∉ sv.data)
    (rest : List Char) :
    saysScan (saysChars sv ++ '\n' :: rest) = some (escQ sv.data, '\n' :: rest) := by
  rw [saysChars_q hn]
  have hqs := qScan_escQ sv.data hn hb ('\n' :: rest)
  simp only [List.cons_append, List.append_assoc, List.singleton_append] at hqs ⊢
  cases hE : escQ sv.data with
  | nil =>
    rw [hE] at hqs
    simp only [List.nil_append] at hqs
    simp [saysScan, hqs]
  | cons d0 es =>
    have hd0 : d0 ≠ '"' := escQ_head_ne sv.data d0 es hE
    rw [hE] at hqs
    cases es with
    | nil =>
      simp only [List.cons_append, List.nil_append] at hqs
      simp [saysScan, hd0, hqs]
    | cons e0 es' =>
      simp only [List.cons_append] at hqs
      simp [saysScan, hd0, hqs]

/-- The emotion-plus-says group on a single-line quoted says returns the
says body still escaped. -/
theorem emoSaysScan_escQ (em sv : String) (he : emoSafe em) (hn : '\n' ∉ sv.data)
    (hb : '\\' ∉ sv.data) (rest : List Char) :
    emoSaysScan (emotionChars em ++ (saysChars sv ++ '\n' :: rest))
      = some (em, (⟨escQ sv.data⟩ : String), '\n' :: rest) := by
  have hsays := saysScan_escQ sv hn hb rest
  by_cases hem : em = ""
  · subst hem
    have hw : saysChars sv = '"' :: (escQ sv.data ++ ['"']) := saysChars_q hn
    have hec : emotionChars "" = [] := rfl
    rw [hec, List.nil_append, hw]
    simp only [List.cons_append]
    simp only [emoSaysScan]
    rw [if_neg (by decide)]
    have hs2 : saysScan ('"' :: ((escQ sv.data ++ ['"']) ++ '\n' :: rest))
        = some (escQ sv.data, '\n' :: rest) := by
      rw [← List.cons_append, ← hw]
      exact hsays
    rw [hs2]
    rfl
  · obtain ⟨hp, hnl⟩ := he
    rw [show emotionChars em = '(' :: (em.data ++ [')', ' ']) from by
      simp [emotionChars, hem]]
    have htk := takeToCharNoNl_spec ')' em.data hp hnl
      (' ' :: (saysChars sv ++ '\n' :: rest))
    simp only [List.cons_append, List.append_assoc]
    simp only [List.cons_append] at htk
    simp [emoSaysScan, htk, hsays]

/-- The `Self` alternative on a single-line quoted says keeps the
escapes raw in the parsed occurrence. -/
theorem trySelf_escQ (em sv : String) (he : emoSafe em) (hn : '\n' ∉ sv.data)
    (hb : '\\' ∉ sv.data) (rest : List Char) :
    trySelf ("Self: ".data ++ (emotionChars em ++ (saysChars sv ++ '\n' :: rest)))
      = some (.self em (⟨escQ sv.data⟩ : String), rest) := by
  have hes := emoSaysScan_escQ em sv he hn hb rest
  unfold trySelf
  rw [lit_self]
  simp only [bind, Option.bind]
  rw [hes]
  rfl

/-- The full grammar on a serialized `Self` with single-line quoted says
returns the says still escaped. -/
theorem parseOcc_self_escQ (em sv : String) (he : emoSafe em) (hn : '\n' ∉ sv.data)
    (hb : '\\' ∉ sv.data) (rest : List Char) :
    parseOcc (occChars (.self em sv) ++ '\n' :: rest)
      = some (.self em (⟨escQ sv.data⟩ : String), rest) := by
  have hshape : occChars (.self em sv) ++ '\n' :: rest
      = "Self: ".data ++ (emotionChars em ++ (saysChars sv ++ '\n' :: rest)) := by
    simp [occChars, List.append_assoc]
  have halts : parseOcc ("Self: ".data ++ (emotionChars em ++ (saysChars sv ++ '\n' :: rest)))
      = firstAlt ("Self: ".data ++ (emotionChars em ++ (saysChars sv ++ '\n' :: rest)))
          [trySelf, tryMotivation, tryObservation, tryThought, tryIdentification, tryWaiting, tryResuming, tryWorking, tryAction, tryRejected, tryCritiqueRequest, tryCritique, tryRevisionRequest, tryRevision, tryParticipant] := rfl
  rw [hshape, halts]
  simp only [firstAlt]
  rw [trySelf_escQ em sv he hn hb rest, orO_some]

/-- The occurrence loop succeeds with the empty list when nothing but
blank lines remain. -/
theorem parseOccs_done (f : Nat) (tail : List Char) (h : skipNewlines tail = []) :
    parseOccs (f + 1) tail = .ok [] := by
  simp only [parseOccs, h]

/-- Text parse of a single-occurrence document, described by what the
grammar returns on its one line. -/
theorem momentParse_single (o o' : Occurrence) (tail : List Char)
    (hcons : ∃ c cs, occChars o = c :: cs ∧ c ≠ '\n' ∧ c ≠ '#')
    (hp : parseOcc (occChars o ++ ['\n']) = some (o', tail))
    (hskip : skipNewlines tail = []) :
    momentParse (.text ⟨occChars o ++ ['\n']⟩) = .ok ⟨"", [o']⟩ := by
  obtain ⟨c, cs, hcons, hcnl, hch⟩ := hcons
  have hdc : dropComments (occChars o ++ ['\n']).length (occChars o ++ ['\n'])
      = occChars o ++ ['\n'] := by
    apply dropComments_no_hash
    intro c0 r0 hcr
    rw [hcons, List.cons_append] at hcr
    injection hcr with h1 _
    exact h1 ▸ hch
  have hs : skipNewlines (occChars o ++ ['\n']) = c :: (cs ++ ['\n']) := by
    rw [hcons, List.cons_append]
    exact skipNewlines_cons_ne hcnl _
  have hp' : parseOcc (c :: (cs ++ ['\n'])) = some (o', tail) := by
    rw [← List.cons_append, ← hcons]
    exact hp
  have hstep := parseOccs_step ((occChars o ++ ['\n']).length) _ c _ hs o' tail hp'
  have hlen : (occChars o ++ ['\n']).length = (cs ++ ['\n']).length + 1 := by
    rw [hcons, List.cons_append, List.length_cons]
  unfold momentParse momentParseText
  dsimp only
  rw [hdc, hstep, hlen, parseOccs_done _ tail hskip]
  rfl

/-- C2 counterexample: serializing a `Self` whose says holds a double
quote and re-parsing does not yield the original unescaped says; the
parsed says keeps the backslash escapes. -/
theorem c2_counterexample :
    momentParse (.text (momentText ⟨"m2", [.self "" "she said \"hi\""]⟩))
        = .ok ⟨"", [.self "" "she said \\\"hi\\\""]⟩
      ∧ ("she said \\\"hi\\\"" : String) ≠ "she said \"hi\"" :=
  ⟨rfl, by decide⟩

/-- C2 (amended): a `Self` with a quote-free-newline-free or
newline-bearing says serializes with quotes escaped; re-parsing the
single-line form returns the says with the backslash escapes still in
place (hence the original string only when it was quote-free), and the
triple-quoted form re-parses unchanged when the says is quote-free. -/
theorem c2_escaping_law :
    (∀ (i em sv : String), emoSafe em → '\n' ∉ sv.data → '\\' ∉ sv.data →
        momentParse (.text (momentText ⟨i, [.self em sv]⟩))
            = .ok ⟨"", [.self em (⟨escQ sv.data⟩ : String)]⟩
          ∧ saysChars sv = '"' :: (escQ sv.data ++ ['"']))
    ∧ (∀ sv : String, '"' ∈ sv.data → (⟨escQ sv.data⟩ : String) ≠ sv)
    ∧ (∀ (i em sv : String), emoSafe em → '"' ∉ sv.data → '\\' ∉ sv.data →
        '\n' ∈ sv.data →
        momentParse (.text (momentText ⟨i, [.self em sv]⟩)) = .ok ⟨"", [.self em sv]⟩
          ∧ saysChars sv = '"' :: '"' :: '"' :: (sv.data ++ ['"', '"', '"'])) := by
  refine ⟨?_, ?_, ?_⟩
  · intro i em sv he hn hb
    refine ⟨?_, saysChars_q hn⟩
    rw [show momentText ⟨i, [Occurrence.self em sv]⟩
      = (⟨occChars (.self em sv) ++ ['\n']⟩ : String) from rfl]
    exact momentParse_single (.self em sv) (.self em (⟨escQ sv.data⟩ : String)) []
      ⟨'S', _, rfl, by decide, by decide⟩
      (parseOcc_self_escQ em sv he hn hb []) rfl
  · intro sv hq hcontra
    have hd : escQ sv.data = sv.data := congrArg String.data hcontra
    have hlt := escQ_length_lt hq
    rw [hd] at hlt
    exact absurd hlt (lt_irrefl _)
  · intro i em sv he hq hb hn
    refine ⟨?_, saysChars_tq hn hq⟩
    have hsafe : ∀ o ∈ (⟨i, [.self em sv]⟩ : Moment).occurrences, SafeOcc o := by
      intro o ho
      simp only [List.mem_singleton] at ho
      subst ho
      exact ⟨he, hq, hb⟩
    exact momentText_parse ⟨i, [.self em sv]⟩ hsafe

/-- C2 witness: the three parts at concrete inputs. -/
theorem c2_escaping_law_witness :
    (momentParse (.text (momentText ⟨"a", [.self "" "x\"y"]⟩))
        = .ok ⟨"", [.self "" (⟨escQ "x\"y".data⟩ : String)]⟩
      ∧ saysChars "x\"y" = '"' :: (escQ "x\"y".data ++ ['"']))
    ∧ (⟨escQ "\"".data⟩ : String) ≠ "\""
    ∧ (momentParse (.text (momentText ⟨"b", [.self "" "a\nb"]⟩))
        = .ok ⟨"", [.self "" "a\nb"]⟩
      ∧ saysChars "a\nb" = '"' :: '"' :: '"' :: ("a\nb".data ++ ['"', '"', '"'])) :=
  ⟨c2_escaping_law.1 "a" "" "x\"y"
      (⟨by decide, by decide⟩ : ')' ∉ ("" : String).data ∧ '\n' ∉ ("" : String).data)
      (by decide) (by decide),
   c2_escaping_law.2.1 "\"" (by decide),
   c2_escaping_law.2.2 "b" "" "a\nb"
      (⟨by decide, by decide⟩ : ')' ∉ ("" : String).data ∧ '\n' ∉ ("" : String).data)
      (by decide) (by decide) (by decide)⟩

/-- C7 counterexample: parsing a text whose leading comment carries
`# Moment Id: abc` yields a Moment whose id is `""`, not `"abc"`. -/
theorem c7_counterexample :
    momentParse (.text "# Moment Id: abc\nBegin.\n") = .ok ⟨"", [.begin]⟩
      ∧ ("" : String) ≠ "abc" :=
  ⟨rfl, by decide⟩

/-- C7 (amended): the text route never extracts a Moment id — every
successful text parse yields a Moment whose id is the empty string,
whatever the input (the `# Moment Id:` header is discarded with the
comment block). -/
theorem c7_text_id_empty (s : String) (m : Moment)
    (h : momentParse (.text s) = .ok m) : m.id = "" := by
  unfold momentParse momentParseText at h
  dsimp only at h
  cases hq : parseOccs ((dropComments s.data.length s.data).length + 1)
      (dropComments s.data.length s.data) with
  | error e =>
    rw [hq] at h
    exact absurd h (by simp [Except.map])
  | ok occs =>
    rw [hq] at h
    simp only [Except.map] at h
    injection h with h2
    rw [← h2]

/-- C7 witness: the amended theorem applied to a parse whose input
header names the id `abc`. -/
theorem c7_text_id_empty_witness :
    (⟨"", [Occurrence.begin]⟩ : Moment).id = "" :=
  c7_text_id_empty "# Moment Id: abc\nBegin.\n" ⟨"", [.begin]⟩ rfl

/-- C4 (confirmed): an occurrence entry with an unknown kind string is
silently dropped by the dict route (no error, no occurrence), while in
the text route a non-blank, non-comment line matched by no grammar
alternative fails the whole parse with an `UnmatchedLineError` naming
the offending line. -/
theorem c4_unknown_kind_asymmetry :
    (∀ (k : String) (c : Option Val), k ∉ knownKinds →
        dispatchOcc (some k) c = .ok none)
    ∧ (∀ (l rest : List Char), l ≠ [] → '\n' ∉ l → (∀ c r, l = c :: r → c ≠ '#') →
        parseOcc (l ++ '\n' :: rest) = none →
        momentParse (.text ⟨l ++ '\n' :: rest⟩)
          = .error ("UnmatchedLineError: " ++ (⟨l⟩ : String))) := by
  constructor
  · intro k c hk
    simp only [knownKinds, List.mem_cons, List.mem_singleton, not_or] at hk
    obtain ⟨h1, h2, h3, h4, h5, h6, h7, h8, h9, h10, h11, h12, h13, h14, h15,
      h16, h17, h18, h19⟩ := hk
    simp [dispatchOcc, h1, h2, h3, h4, h5, h6, h7, h8, h9, h10, h11, h12, h13,
      h14, h15, h16, h17, h18, h19, pure, Except.pure]
  · intro l rest hne hnl hhash hp
    obtain ⟨c0, l', rfl⟩ : ∃ c0 l', l = c0 :: l' := by
      cases hl : l with
      | nil => exact absurd hl hne
      | cons c0 l' => exact ⟨c0, l', rfl⟩
    rw [List.mem_cons, not_or] at hnl
    have hc0 : c0 ≠ '\n' := fun he => hnl.1 he.symm
    have hdc : dropComments ((c0 :: l') ++ '\n' :: rest).length ((c0 :: l') ++ '\n' :: rest)
        = (c0 :: l') ++ '\n' :: rest := by
      apply dropComments_no_hash
      intro c r hcr
      rw [List.cons_append] at hcr
      injection hcr with hh _
      exact hh ▸ hhash c0 l' rfl
    have hrl : restOfLine ((c0 :: l') ++ '\n' :: rest) = (c0 :: l', rest) :=
      restOfLine_spec (c0 :: l') (by
        rw [List.mem_cons, not_or]
        exact ⟨fun he => hnl.1 he, hnl.2⟩) rest
    unfold momentParse momentParseText
    dsimp only
    rw [hdc]
    simp only [parseOccs, List.cons_append, skipNewlines_cons_ne hc0]
    rw [← List.cons_append, hp, hrl]
    rfl

/-- C4 witness: the two routes at concrete inputs — kind `Bogus` is
dropped; the line `Unrecognized: nothing` raises `UnmatchedLineError`. -/
theorem c4_unknown_kind_asymmetry_witness :
    dispatchOcc (some "Bogus") (some (.m [])) = .ok none
      ∧ momentParse (.text ⟨"Unrecognized: nothing".data ++ '\n' :: []⟩)
          = .error ("UnmatchedLineError: " ++ (⟨"Unrecognized: nothing".data⟩ : String)) :=
  ⟨c4_unknown_kind_asymmetry.1 "Bogus" (some (.m [])) (by decide),
   c4_unknown_kind_asymmetry.2 "Unrecognized: nothing".data [] (by decide) (by decide)
     (fun c r hcr => by
       rw [show ("Unrecognized: nothing".data : List Char)
         = 'U' :: "nrecognized: nothing".data from rfl] at hcr
       injection hcr with h1 _
       rw [← h1]
       decide)
     rfl⟩

end Moments
